import Mathlib

/-!
# Reader-writer lock syscalls (`rpcs3/Emu/SysCalls/lv2/sys_rwlock.cpp`)

A shallow embedding of the eight `sys_rwlock_*` syscalls.  Every syscall body runs
under `LV2_LOCK`, so a non-blocking call is one atomic transition of the id manager.
The two blocking calls (`rlock`, `wlock`) release the serializer only inside
`cv.wait_for`; one pass from the loop head to the next `cv.wait_for` (or to a
`return`) is therefore atomic as well and is embedded as a `*_check` function.

Environment readings (`get_system_time()`, `Emu.IsStopped()`, `CPU.GetId()`) are
explicit arguments.
-/

namespace SysRwlock

/-! ## Status codes -/

/-- The status codes the syscalls return (`CELL_OK` and the `CELL_E*` error codes). -/
inductive Status where
  | CELL_OK
  | CELL_EFAULT
  | CELL_EINVAL
  | CELL_ESRCH
  | CELL_EBUSY
  | CELL_ETIMEDOUT
  | CELL_EDEADLK
  | CELL_EPERM
  deriving DecidableEq, Repr

open Status

/-! ## Data model -/

/-- Modelled from the spec: the lock object `rwlock_t`, whose declaration
(`sys_rwlock.h`) is not part of the source at hand.  Fields as in spec section 3 and as
used by the code: `protocol`, `name`, the `readers` count, the `writer` identity with
`0` for "none", and the `waiters` count.  The counters are unbounded integers (the
code asserts `waiters >= 0`, so the counter is signed); the constructor call
`rwlock_t(protocol, name)` starts all three at zero. -/
structure rwlock_t where
  protocol : Nat
  name : Nat
  readers : Int
  writer : Nat
  waiters : Int
  deriving DecidableEq, Repr

/-- The constructor `rwlock_t(protocol, name)` (line 39): `readers=0, writer=none,
waiters=0`. -/
def rwlock_t.new (protocol name : Nat) : rwlock_t :=
  { protocol := protocol, name := name, readers := 0, writer := 0, waiters := 0 }

/-- Modelled from the spec: one slot of the handle table, a shared lock object together
with the use count of its `shared_ptr` while no call holds a local copy: one for the
table itself plus one for every call suspended in a wait loop. -/
structure ID where
  data : rwlock_t
  use_count : Nat
  deriving DecidableEq, Repr

/-- Modelled from the spec: the handle table `Emu.GetIdManager()` (`Emu/IdManager.h`
is not part of the source at hand): "register(object) -> handle; resolve(handle) ->
object or not-found; release(handle); reference count exposed". -/
structure IdManager where
  m_cur_id : Nat
  m_id_map : List (Nat × ID)
  deriving DecidableEq, Repr

namespace IdManager

/-- Resolve a handle in the association list: first slot with that key. -/
def find (id : Nat) : List (Nat × ID) → Option ID
  | [] => none
  | (k, e) :: rest => if k = id then some e else find id rest

/-- Modelled from the spec: `GetIDData(id, ptr)`, resolve a handle; `none` is the
`false` return (not found). -/
def GetIDData (m : IdManager) (id : Nat) : Option ID :=
  find id m.m_id_map

/-- Modelled from the spec: `GetNewID(ptr, TYPE_RWLOCK)`, register an object under the
next free handle and return that handle; the table holds the only reference. -/
def GetNewID (m : IdManager) (obj : rwlock_t) : Nat × IdManager :=
  (m.m_cur_id,
   { m_cur_id := m.m_cur_id + 1,
     m_id_map := (m.m_cur_id, { data := obj, use_count := 1 }) :: m.m_id_map })

/-- Drop every slot stored under `id`. -/
def eraseSlot (id : Nat) : List (Nat × ID) → List (Nat × ID)
  | [] => []
  | (k, x) :: rest => if k = id then eraseSlot id rest else (k, x) :: eraseSlot id rest

/-- Modelled from the spec: `RemoveID(id)`, drop the handle from the table. -/
def RemoveID (m : IdManager) (id : Nat) : IdManager :=
  { m with m_id_map := eraseSlot id m.m_id_map }

/-- Replace the slot stored under `id` (a write through the resolved `shared_ptr`). -/
def setSlot (id : Nat) (e : ID) : List (Nat × ID) → List (Nat × ID)
  | [] => []
  | (k, x) :: rest => if k = id then (k, e) :: rest else (k, x) :: setSlot id e rest

/-- The table after a call has written the object resolved from `id`. -/
def put (m : IdManager) (id : Nat) (e : ID) : IdManager :=
  { m with m_id_map := setSlot id e m.m_id_map }

end IdManager

/-! ## Guest time -/

/-- Subtraction of two `u64` values, `get_system_time() - start_time` (lines 84, 174). -/
def u64_sub (a b : Nat) : Nat :=
  (a % 18446744073709551616 + 18446744073709551616 - b % 18446744073709551616)
    % 18446744073709551616

/-- The timeout test `timeout && get_system_time() - start_time > timeout`
(lines 84, 174). -/
def timed_out (timeout start_time now : Nat) : Bool :=
  decide (timeout ≠ 0) && decide (u64_sub now start_time > timeout)

/-! ## Creation and destruction -/

/-- The attribute record `sys_rwlock_attribute_t` read through `attr` (lines 23, 33, 39). -/
structure sys_rwlock_attribute_t where
  protocol : Nat
  pshared : Nat
  ipc_key : Nat
  flags : Nat
  name_u64 : Nat
  deriving DecidableEq, Repr

/-- The protocol tags `SYS_SYNC_FIFO`, `SYS_SYNC_PRIORITY`, `SYS_SYNC_PRIORITY_INHERIT`
(lines 27-29).  Their numeric values are declared outside the source at hand and are
taken as parameters. -/
structure sys_sync where
  SYS_SYNC_FIFO : Nat
  SYS_SYNC_PRIORITY : Nat
  SYS_SYNC_PRIORITY_INHERIT : Nat
  deriving DecidableEq, Repr

/-- The function `sys_rwlock_create` (lines 14-44).  `rw_lock_id` and `attr` are guest
addresses (`0` is the null pointer), `a` is the record stored at `attr`.  The third
component of the result is the guest-memory write of the call, if any: the address of
the output slot and the handle stored there (line 41). -/
def sys_rwlock_create (K : sys_sync) (m : IdManager) (rw_lock_id attr : Nat)
    (a : sys_rwlock_attribute_t) : Status × IdManager × Option (Nat × Nat) :=
  if rw_lock_id = 0 ∨ attr = 0 then
    (CELL_EFAULT, m, none)
  else if ¬ (a.protocol = K.SYS_SYNC_FIFO ∨ a.protocol = K.SYS_SYNC_PRIORITY
      ∨ a.protocol = K.SYS_SYNC_PRIORITY_INHERIT) then
    (CELL_EINVAL, m, none)
  else if a.pshared ≠ 0x200 ∨ a.ipc_key ≠ 0 ∨ a.flags ≠ 0 then
    (CELL_EINVAL, m, none)
  else
    let r := m.GetNewID (rwlock_t.new a.protocol a.name_u64)
    (CELL_OK, r.2, some (rw_lock_id, r.1))

/-- The function `sys_rwlock_destroy` (lines 46-66).  The local `shared_ptr` of the
call adds one to the use count of the slot. -/
def sys_rwlock_destroy (m : IdManager) (rw_lock_id : Nat) : Status × IdManager :=
  match m.GetIDData rw_lock_id with
  | none => (CELL_ESRCH, m)
  | some e =>
    if e.use_count + 1 > 2 ∨ e.data.readers ≠ 0 ∨ e.data.writer ≠ 0
        ∨ e.data.waiters ≠ 0 then
      (CELL_EBUSY, m)
    else
      (CELL_OK, m.RemoveID rw_lock_id)

/-! ## Non-blocking acquisition and release -/

/-- The function `sys_rwlock_tryrlock` (lines 103-123). -/
def sys_rwlock_tryrlock (m : IdManager) (rw_lock_id : Nat) : Status × IdManager :=
  match m.GetIDData rw_lock_id with
  | none => (CELL_ESRCH, m)
  | some e =>
    if e.data.writer ≠ 0 ∨ e.data.waiters ≠ 0 then
      (CELL_EBUSY, m)
    else
      (CELL_OK, m.put rw_lock_id { e with data := { e.data with readers := e.data.readers + 1 } })

/-- The function `sys_rwlock_runlock` (lines 125-148); `cv.notify_one()` changes no
field. -/
def sys_rwlock_runlock (m : IdManager) (rw_lock_id : Nat) : Status × IdManager :=
  match m.GetIDData rw_lock_id with
  | none => (CELL_ESRCH, m)
  | some e =>
    if e.data.readers = 0 then
      (CELL_EPERM, m)
    else
      (CELL_OK, m.put rw_lock_id { e with data := { e.data with readers := e.data.readers - 1 } })

/-- The function `sys_rwlock_trywlock` (lines 195-220); `cpu` is `CPU.GetId()`. -/
def sys_rwlock_trywlock (m : IdManager) (cpu rw_lock_id : Nat) : Status × IdManager :=
  match m.GetIDData rw_lock_id with
  | none => (CELL_ESRCH, m)
  | some e =>
    if e.data.writer = cpu then
      (CELL_EDEADLK, m)
    else if e.data.readers ≠ 0 ∨ e.data.writer ≠ 0 ∨ e.data.waiters ≠ 0 then
      (CELL_EBUSY, m)
    else
      (CELL_OK, m.put rw_lock_id { e with data := { e.data with writer := cpu } })

/-- The function `sys_rwlock_wunlock` (lines 222-243); `cv.notify_all()` changes no
field. -/
def sys_rwlock_wunlock (m : IdManager) (cpu rw_lock_id : Nat) : Status × IdManager :=
  match m.GetIDData rw_lock_id with
  | none => (CELL_ESRCH, m)
  | some e =>
    if e.data.writer ≠ cpu then
      (CELL_EPERM, m)
    else
      (CELL_OK, m.put rw_lock_id { e with data := { e.data with writer := 0 } })

/-! ## Blocking acquisition -/

/-- Which `return` a wait loop left through. -/
inductive Exit where
  /-- The timeout branch (lines 86, 177). -/
  | timeout
  /-- The `Emu.IsStopped()` branch (lines 92, 183). -/
  | stop
  /-- The code after the loop (lines 98-100, 189-192). -/
  | acquired
  deriving DecidableEq, Repr

/-- The status each `return` of a wait loop carries. -/
def Exit.status : Exit → Status
  | .timeout => CELL_ETIMEDOUT
  | .stop => CELL_OK
  | .acquired => CELL_OK

/-- One atomic pass of a blocking call, from the loop head to its next suspension. -/
inductive Check where
  /-- The call returned, leaving the lock object as given. -/
  | ret (x : Exit) (l : rwlock_t)
  /-- The call reached `cv.wait_for` (lines 95, 186). -/
  | wait (l : rwlock_t)
  /-- An `assert` failed (lines 170, 176, 190). -/
  | assert_fail
  deriving DecidableEq, Repr

/-- One pass of the loop of `sys_rwlock_rlock` (lines 82-100) on the lock object, with
the clock reading `now` and the stop flag `stopped` of that instant. -/
def rlock_check (rwlock : rwlock_t) (timeout start_time now : Nat) (stopped : Bool) :
    Check :=
  if rwlock.writer ≠ 0 ∨ rwlock.waiters ≠ 0 then
    if timed_out timeout start_time now then
      .ret .timeout rwlock
    else if stopped then
      .ret .stop rwlock
    else
      .wait rwlock
  else
    .ret .acquired { rwlock with readers := rwlock.readers + 1 }

/-- Lines 189-192 of `sys_rwlock_wlock`: take write ownership, drop the own waiter
count, check the assertion. -/
def wlock_acquire (rwlock : rwlock_t) (cpu : Nat) : Check :=
  let l := { rwlock with writer := cpu, waiters := rwlock.waiters - 1 }
  if l.waiters ≥ 0 then .ret .acquired l else .assert_fail

/-- One pass of the loop of `sys_rwlock_wlock` (lines 172-192) on the lock object. -/
def wlock_check (rwlock : rwlock_t) (cpu timeout start_time now : Nat) (stopped : Bool) :
    Check :=
  if rwlock.readers ≠ 0 ∨ rwlock.writer ≠ 0 then
    if timed_out timeout start_time now then
      let l := { rwlock with waiters := rwlock.waiters - 1 }
      if l.waiters ≥ 0 then .ret .timeout l else .assert_fail
    else if stopped then
      .ret .stop rwlock
    else
      .wait rwlock
  else
    wlock_acquire rwlock cpu

/-- Lines 164-170 of `sys_rwlock_wlock`, before the loop: the self-deadlock test, then
`waiters++` with its assertion.  `none` is the assertion failure. -/
def wlock_enter (rwlock : rwlock_t) (cpu : Nat) : Option (Status ⊕ rwlock_t) :=
  if rwlock.writer = cpu then
    some (.inl CELL_EDEADLK)
  else
    let l := { rwlock with waiters := rwlock.waiters + 1 }
    if l.waiters > 0 then some (.inr l) else none

/-- How a call ended in a run where no other context changes the lock between its
checks. -/
inductive Ret where
  /-- The call returned this status. -/
  | done (s : Status)
  /-- The readings ran out with the call suspended in `cv.wait_for`. -/
  | blocked
  /-- An `assert` failed. -/
  | assert_failed
  deriving DecidableEq, Repr

/-- The loop of `sys_rwlock_rlock` (lines 82-100), run while no other context changes
the lock object.  `obs` lists, for the successive passes through the loop body, the
clock reading and the stop flag. -/
def rlock_loop (timeout start_time : Nat) (rwlock : rwlock_t) :
    List (Nat × Bool) → Ret × rwlock_t
  | [] =>
    if rwlock.writer ≠ 0 ∨ rwlock.waiters ≠ 0 then (.blocked, rwlock)
    else (.done CELL_OK, { rwlock with readers := rwlock.readers + 1 })
  | (now, stopped) :: obs =>
    match rlock_check rwlock timeout start_time now stopped with
    | .ret x l => (.done x.status, l)
    | .wait l => rlock_loop timeout start_time l obs
    | .assert_fail => (.assert_failed, rwlock)

/-- The loop of `sys_rwlock_wlock` (lines 172-192), run while no other context changes
the lock object. -/
def wlock_loop (cpu timeout start_time : Nat) (rwlock : rwlock_t) :
    List (Nat × Bool) → Ret × rwlock_t
  | [] =>
    if rwlock.readers ≠ 0 ∨ rwlock.writer ≠ 0 then (.blocked, rwlock)
    else
      match wlock_acquire rwlock cpu with
      | .ret x l => (.done x.status, l)
      | _ => (.assert_failed, rwlock)
  | (now, stopped) :: obs =>
    match wlock_check rwlock cpu timeout start_time now stopped with
    | .ret x l => (.done x.status, l)
    | .wait l => wlock_loop cpu timeout start_time l obs
    | .assert_fail => (.assert_failed, rwlock)

/-- Write back the lock object a blocking call left behind; a call that is still
suspended keeps its local `shared_ptr`, which counts in the use count. -/
def finish (m : IdManager) (rw_lock_id : Nat) (e : ID) (r : Ret × rwlock_t) :
    Ret × IdManager :=
  match r.1 with
  | .done s => (.done s, m.put rw_lock_id { e with data := r.2 })
  | .blocked => (.blocked, m.put rw_lock_id { data := r.2, use_count := e.use_count + 1 })
  | .assert_failed => (.assert_failed, m)

/-- The function `sys_rwlock_rlock` (lines 68-101); `start_time` is the reading of
line 72. -/
def sys_rwlock_rlock (m : IdManager) (rw_lock_id timeout start_time : Nat)
    (obs : List (Nat × Bool)) : Ret × IdManager :=
  match m.GetIDData rw_lock_id with
  | none => (.done CELL_ESRCH, m)
  | some e => finish m rw_lock_id e (rlock_loop timeout start_time e.data obs)

/-- The function `sys_rwlock_wlock` (lines 150-193); `cpu` is `CPU.GetId()`,
`start_time` is the reading of line 154. -/
def sys_rwlock_wlock (m : IdManager) (cpu rw_lock_id timeout start_time : Nat)
    (obs : List (Nat × Bool)) : Ret × IdManager :=
  match m.GetIDData rw_lock_id with
  | none => (.done CELL_ESRCH, m)
  | some e =>
    match wlock_enter e.data cpu with
    | none => (.assert_failed, m)
    | some (.inl s) => (.done s, m)
    | some (.inr l) => finish m rw_lock_id e (wlock_loop cpu timeout start_time l obs)

/-! ## Sequences of calls on one handle -/

/-- An acquire or release call with its arguments and environment readings. -/
inductive Call where
  | rlock (timeout start_time : Nat) (obs : List (Nat × Bool))
  | tryrlock
  | runlock
  | wlock (cpu timeout start_time : Nat) (obs : List (Nat × Bool))
  | trywlock (cpu : Nat)
  | wunlock (cpu : Nat)
  deriving DecidableEq, Repr

/-- Perform one call on the handle `id`. -/
def Call.run (m : IdManager) (id : Nat) : Call → Ret × IdManager
  | .rlock timeout start_time obs => sys_rwlock_rlock m id timeout start_time obs
  | .tryrlock => ((sys_rwlock_tryrlock m id).map Ret.done fun x => x)
  | .runlock => ((sys_rwlock_runlock m id).map Ret.done fun x => x)
  | .wlock cpu timeout start_time obs => sys_rwlock_wlock m cpu id timeout start_time obs
  | .trywlock cpu => ((sys_rwlock_trywlock m cpu id).map Ret.done fun x => x)
  | .wunlock cpu => ((sys_rwlock_wunlock m cpu id).map Ret.done fun x => x)

/-- Perform the calls one after the other; the result lists what each call returned and
the table it left.  A failed assertion ends the run. -/
def run_calls (m : IdManager) (id : Nat) : List Call → List (Ret × IdManager)
  | [] => []
  | c :: cs =>
    let r := c.run m id
    r :: (if r.1 = .assert_failed then [] else run_calls r.2 id cs)

/-! ## Interleaved calls on one handle -/

/-- A `wlock` call suspended in `cv.wait_for` (line 186): its caller, its timeout and
the start time it read at line 154. -/
structure wlock_waiter where
  cpu : Nat
  timeout : Nat
  start_time : Nat
  deriving DecidableEq, Repr

/-- An `rlock` call suspended in `cv.wait_for` (line 95): its timeout and the start
time it read at line 72. -/
structure rlock_waiter where
  timeout : Nat
  start_time : Nat
  deriving DecidableEq, Repr

/-- The handle table together with the calls currently suspended on the handle under
study. -/
structure Machine where
  idm : IdManager
  wlocks : List wlock_waiter
  rlocks : List rlock_waiter
  deriving DecidableEq, Repr

/-- One stretch of execution under `LV2_LOCK`: a whole non-blocking call, the start of
a blocking call up to its first `cv.wait_for` or `return`, or one further pass of a
suspended call (`i` is its position in the list of suspended calls).  `now` and
`stopped` are the clock reading and the stop flag of that instant. -/
inductive Step where
  | destroy
  | tryrlock
  | runlock
  | trywlock (cpu : Nat)
  | wunlock (cpu : Nat)
  | rlock (timeout start_time now : Nat) (stopped : Bool)
  | rlock_wake (i now : Nat) (stopped : Bool)
  | wlock (cpu timeout start_time now : Nat) (stopped : Bool)
  | wlock_wake (i now : Nat) (stopped : Bool)
  deriving DecidableEq, Repr

/-- Perform one step on the handle `id`.  The result is `none` when an `assert` of
`sys_rwlock_wlock` fails; otherwise it holds the status of the call if the call
returned in this step, and the state after the step.  A call that suspends keeps its
`shared_ptr` (use count up by one) until it returns.  Waking a call that is not
suspended does nothing. -/
def Machine.step (id : Nat) (s : Machine) : Step → Option (Option Status × Machine)
  | .destroy =>
    some (some (sys_rwlock_destroy s.idm id).1, { s with idm := (sys_rwlock_destroy s.idm id).2 })
  | .tryrlock =>
    some (some (sys_rwlock_tryrlock s.idm id).1,
      { s with idm := (sys_rwlock_tryrlock s.idm id).2 })
  | .runlock =>
    some (some (sys_rwlock_runlock s.idm id).1, { s with idm := (sys_rwlock_runlock s.idm id).2 })
  | .trywlock cpu =>
    some (some (sys_rwlock_trywlock s.idm cpu id).1,
      { s with idm := (sys_rwlock_trywlock s.idm cpu id).2 })
  | .wunlock cpu =>
    some (some (sys_rwlock_wunlock s.idm cpu id).1,
      { s with idm := (sys_rwlock_wunlock s.idm cpu id).2 })
  | .rlock timeout start_time now stopped =>
    match s.idm.GetIDData id with
    | none => some (some CELL_ESRCH, s)
    | some e =>
      match rlock_check e.data timeout start_time now stopped with
      | .ret x l => some (some x.status, { s with idm := s.idm.put id { e with data := l } })
      | .wait l =>
        some (none,
          { s with idm := s.idm.put id { data := l, use_count := e.use_count + 1 },
                   rlocks := { timeout := timeout, start_time := start_time } :: s.rlocks })
      | .assert_fail => none
  | .rlock_wake i now stopped =>
    match s.rlocks[i]?, s.idm.GetIDData id with
    | some w, some e =>
      match rlock_check e.data w.timeout w.start_time now stopped with
      | .ret x l =>
        some (some x.status,
          { s with idm := s.idm.put id { data := l, use_count := e.use_count - 1 },
                   rlocks := s.rlocks.eraseIdx i })
      | .wait l => some (none, { s with idm := s.idm.put id { e with data := l } })
      | .assert_fail => none
    | _, _ => some (none, s)
  | .wlock cpu timeout start_time now stopped =>
    match s.idm.GetIDData id with
    | none => some (some CELL_ESRCH, s)
    | some e =>
      match wlock_enter e.data cpu with
      | none => none
      | some (.inl status) => some (some status, s)
      | some (.inr entered) =>
        match wlock_check entered cpu timeout start_time now stopped with
        | .ret x l => some (some x.status, { s with idm := s.idm.put id { e with data := l } })
        | .wait l =>
          some (none,
            { s with idm := s.idm.put id { data := l, use_count := e.use_count + 1 },
                     wlocks := { cpu := cpu, timeout := timeout, start_time := start_time }
                       :: s.wlocks })
        | .assert_fail => none
  | .wlock_wake i now stopped =>
    match s.wlocks[i]?, s.idm.GetIDData id with
    | some w, some e =>
      match wlock_check e.data w.cpu w.timeout w.start_time now stopped with
      | .ret x l =>
        some (some x.status,
          { s with idm := s.idm.put id { data := l, use_count := e.use_count - 1 },
                   wlocks := s.wlocks.eraseIdx i })
      | .wait l => some (none, { s with idm := s.idm.put id { e with data := l } })
      | .assert_fail => none
    | _, _ => some (none, s)

/-- Perform the steps one after the other; `none` when an assertion fails on the
way. -/
def Machine.run (id : Nat) (s : Machine) : List Step → Option Machine
  | [] => some s
  | st :: rest =>
    match s.step id st with
    | none => none
    | some r => Machine.run id r.2 rest

/-- What the steps keep true of the lock behind `id`: `waiters` is at least the number
of suspended `wlock` calls, and no `wlock` call is suspended on a handle that does not
resolve. -/
def Machine.counted (id : Nat) (s : Machine) : Prop :=
  (∀ e, s.idm.GetIDData id = some e → (s.wlocks.length : Int) ≤ e.data.waiters) ∧
  (s.idm.GetIDData id = none → s.wlocks = [])

/-! ## State invariant -/

/-- The data-model invariant of a lock object: both counters are non-negative and a
read hold excludes a write hold. -/
def rwlock_t.ok (l : rwlock_t) : Prop :=
  0 ≤ l.readers ∧ (0 < l.readers → l.writer = 0) ∧ 0 ≤ l.waiters

/-! ## Example states -/

/-- A table holding one lock under handle `1` with the given counters, no call
suspended on it. -/
def table_with (readers : Int) (writer : Nat) (waiters : Int) : IdManager :=
  { m_cur_id := 2,
    m_id_map := [(1, { data := { protocol := 1, name := 0, readers := readers,
                                 writer := writer, waiters := waiters },
                       use_count := 1 })] }

/-- The slot `table_with` stores under handle `1`. -/
def slot_with (readers : Int) (writer : Nat) (waiters : Int) : ID :=
  { data := { protocol := 1, name := 0, readers := readers, writer := writer,
              waiters := waiters },
    use_count := 1 }

/-- A table in which no handle resolves. -/
def table_empty : IdManager := { m_cur_id := 1, m_id_map := [] }

/-- Sample values for the three protocol tags. -/
def sync_sample : sys_sync :=
  { SYS_SYNC_FIFO := 1, SYS_SYNC_PRIORITY := 2, SYS_SYNC_PRIORITY_INHERIT := 3 }

/-- An attribute record that passes every check of `sys_rwlock_create` under
`sync_sample`. -/
def attr_sample : sys_rwlock_attribute_t :=
  { protocol := 1, pshared := 0x200, ipc_key := 0, flags := 0, name_u64 := 7 }

/-- The table `sys_rwlock_create` leaves when it registers a lock with attributes `a`
in `m`, with the counters of the new lock set to `readers` and `writer` (no waiters). -/
def table_created (m : IdManager) (a : sys_rwlock_attribute_t) (readers : Int)
    (writer : Nat) : IdManager :=
  { m_cur_id := m.m_cur_id + 1,
    m_id_map := (m.m_cur_id,
      { data := { protocol := a.protocol, name := a.name_u64, readers := readers,
                  writer := writer, waiters := 0 },
        use_count := 1 }) :: m.m_id_map }

/-! ## Facts about the handle table -/

namespace IdManager

theorem find_setSlot_self (id : Nat) (e x : ID) (t : List (Nat × ID))
    (h : find id t = some x) : find id (setSlot id e t) = some e := by
  induction t with
  | nil => simp [find] at h
  | cons p rest ih =>
    obtain ⟨k, y⟩ := p
    by_cases hk : k = id
    · simp [setSlot, find, hk]
    · simp only [find, hk, if_false] at h
      simp [setSlot, find, hk, ih h]

theorem find_setSlot_other (id j : Nat) (e : ID) (t : List (Nat × ID)) (hj : j ≠ id) :
    find j (setSlot id e t) = find j t := by
  induction t with
  | nil => simp [setSlot]
  | cons p rest ih =>
    obtain ⟨k, y⟩ := p
    by_cases hk : k = id
    · have hkj : ¬ k = j := fun h => hj (h ▸ hk)
      simp only [setSlot, hk, if_true, find]
      rw [if_neg (hk ▸ hkj), if_neg (hk ▸ hkj)]
    · by_cases hkj : k = j
      · subst hkj
        simp only [setSlot, hk, if_false, find, if_true]
      · simp only [setSlot, hk, if_false, find, hkj, ih]

theorem find_eraseSlot_self (id : Nat) (t : List (Nat × ID)) :
    find id (eraseSlot id t) = none := by
  induction t with
  | nil => simp [eraseSlot, find]
  | cons p rest ih =>
    obtain ⟨k, y⟩ := p
    by_cases hk : k = id
    · simp only [eraseSlot, hk, if_true, ih]
    · simp only [eraseSlot, hk, if_false, find, ih]

theorem find_eraseSlot_other (id j : Nat) (t : List (Nat × ID)) (hj : j ≠ id) :
    find j (eraseSlot id t) = find j t := by
  induction t with
  | nil => simp [eraseSlot]
  | cons p rest ih =>
    obtain ⟨k, y⟩ := p
    by_cases hk : k = id
    · have hkj : ¬ k = j := fun h => hj (h ▸ hk)
      simp only [eraseSlot, hk, if_true, find, ih]
      rw [if_neg (hk ▸ hkj)]
    · by_cases hkj : k = j
      · subst hkj
        simp only [eraseSlot, hk, if_false, find, if_true]
      · simp only [eraseSlot, hk, if_false, find, hkj, ih]

theorem GetIDData_put_self (m : IdManager) (id : Nat) (e x : ID)
    (h : m.GetIDData id = some x) : (m.put id e).GetIDData id = some e :=
  find_setSlot_self id e x m.m_id_map h

theorem GetIDData_put_other (m : IdManager) (id j : Nat) (e : ID) (hj : j ≠ id) :
    (m.put id e).GetIDData j = m.GetIDData j :=
  find_setSlot_other id j e m.m_id_map hj

theorem GetIDData_RemoveID_self (m : IdManager) (id : Nat) :
    (m.RemoveID id).GetIDData id = none :=
  find_eraseSlot_self id m.m_id_map

theorem GetIDData_RemoveID_other (m : IdManager) (id j : Nat) (hj : j ≠ id) :
    (m.RemoveID id).GetIDData j = m.GetIDData j :=
  find_eraseSlot_other id j m.m_id_map hj

end IdManager

/-! ## Non-blocking calls -/

/-- C2: on a resolvable handle `tryrlock` returns `CELL_EBUSY` exactly when a writer
holds the lock or a writer waits, and then changes nothing; otherwise it returns
`CELL_OK` and the slot differs from before only in `readers`, which is one higher.
It never returns `CELL_OK` while a writer holds or waits. -/
theorem tryrlock_busy_iff (m : IdManager) (id : Nat) (e : ID)
    (h : m.GetIDData id = some e) :
    ((sys_rwlock_tryrlock m id).1 = CELL_EBUSY ↔
        (e.data.writer ≠ 0 ∨ e.data.waiters ≠ 0)) ∧
    ((e.data.writer ≠ 0 ∨ e.data.waiters ≠ 0) → (sys_rwlock_tryrlock m id).2 = m) ∧
    (¬ (e.data.writer ≠ 0 ∨ e.data.waiters ≠ 0) →
        (sys_rwlock_tryrlock m id).1 = CELL_OK ∧
        (sys_rwlock_tryrlock m id).2.GetIDData id =
          some { e with data := { e.data with readers := e.data.readers + 1 } }) ∧
    ((sys_rwlock_tryrlock m id).1 = CELL_OK →
        e.data.writer = 0 ∧ e.data.waiters = 0) := by
  by_cases hc : e.data.writer ≠ 0 ∨ e.data.waiters ≠ 0
  · simp only [sys_rwlock_tryrlock, h, hc, if_true]
    simp
  · have hput := IdManager.GetIDData_put_self m id
      { e with data := { e.data with readers := e.data.readers + 1 } } e h
    simp only [sys_rwlock_tryrlock, h, hc, if_false]
    refine ⟨by simp, by simp, fun _ => ⟨trivial, hput⟩, fun _ => ?_⟩
    push_neg at hc
    exact hc

/-- C2 at concrete states: with no writer and no waiter the read hold is granted and
`readers` goes from 2 to 3. -/
theorem tryrlock_busy_iff_witness :
    (sys_rwlock_tryrlock (table_with 2 0 0) 1).1 = CELL_OK ∧
    (sys_rwlock_tryrlock (table_with 2 0 0) 1).2.GetIDData 1 = some (slot_with 3 0 0) :=
  (tryrlock_busy_iff (table_with 2 0 0) 1 (slot_with 2 0 0) rfl).2.2.1 (by decide)

/-- C3: on a resolvable handle, for a caller that is not the current writer,
`trywlock` returns `CELL_EBUSY` exactly when readers, a writer or waiters are
present, and then changes nothing; otherwise it returns `CELL_OK` and the slot
differs from before only in `writer`, which is the caller.  (The caller being
nonzero is not needed once it differs from `writer`.) -/
theorem trywlock_busy_iff (m : IdManager) (cpu id : Nat) (e : ID)
    (h : m.GetIDData id = some e) (hw : e.data.writer ≠ cpu) :
    ((sys_rwlock_trywlock m cpu id).1 = CELL_EBUSY ↔
        (e.data.readers ≠ 0 ∨ e.data.writer ≠ 0 ∨ e.data.waiters ≠ 0)) ∧
    ((e.data.readers ≠ 0 ∨ e.data.writer ≠ 0 ∨ e.data.waiters ≠ 0) →
        (sys_rwlock_trywlock m cpu id).2 = m) ∧
    (¬ (e.data.readers ≠ 0 ∨ e.data.writer ≠ 0 ∨ e.data.waiters ≠ 0) →
        (sys_rwlock_trywlock m cpu id).1 = CELL_OK ∧
        (sys_rwlock_trywlock m cpu id).2.GetIDData id =
          some { e with data := { e.data with writer := cpu } }) := by
  by_cases hc : e.data.readers ≠ 0 ∨ e.data.writer ≠ 0 ∨ e.data.waiters ≠ 0
  · simp only [sys_rwlock_trywlock, h, hw, hc, if_true, if_false]
    simp
  · have hput := IdManager.GetIDData_put_self m id
      { e with data := { e.data with writer := cpu } } e h
    simp only [sys_rwlock_trywlock, h, hw, hc, if_false]
    exact ⟨by simp, by simp, fun _ => ⟨trivial, hput⟩⟩

/-- C3 at concrete states: caller 5 takes a free lock. -/
theorem trywlock_busy_iff_witness :
    (sys_rwlock_trywlock (table_with 0 0 0) 5 1).1 = CELL_OK ∧
    (sys_rwlock_trywlock (table_with 0 0 0) 5 1).2.GetIDData 1 = some (slot_with 0 5 0) :=
  (trywlock_busy_iff (table_with 0 0 0) 5 1 (slot_with 0 0 0) rfl (by decide)).2.2
    (by decide)

/-- C4: when the caller is the current writer, `trywlock` and `wlock` both return
`CELL_EDEADLK` and leave the whole table unchanged, whatever the timeout, the clock
readings and the stop flags; `wlock` leaves through the test before `waiters++`, and
`trywlock` reports the deadlock also where the busy test would fire. -/
theorem wlock_self_deadlock (m : IdManager) (cpu id : Nat) (e : ID)
    (h : m.GetIDData id = some e) (hw : e.data.writer = cpu) :
    sys_rwlock_trywlock m cpu id = (CELL_EDEADLK, m) ∧
    wlock_enter e.data cpu = some (.inl CELL_EDEADLK) ∧
    ∀ (timeout start_time : Nat) (obs : List (Nat × Bool)),
      sys_rwlock_wlock m cpu id timeout start_time obs = (.done CELL_EDEADLK, m) := by
  refine ⟨?_, ?_, ?_⟩
  · simp only [sys_rwlock_trywlock, h, hw, if_true]
  · simp only [wlock_enter, hw, if_true]
  · intro timeout start_time obs
    simp only [sys_rwlock_wlock, h, wlock_enter, hw, if_true]

/-- C4 at a concrete state: caller 5 owns the lock while readers and waiters are
recorded as well; both write acquisitions report the deadlock. -/
theorem wlock_self_deadlock_witness :
    sys_rwlock_trywlock (table_with 3 5 2) 5 1 = (CELL_EDEADLK, table_with 3 5 2) ∧
    sys_rwlock_wlock (table_with 3 5 2) 5 1 100 0 [(500, false)]
      = (.done CELL_EDEADLK, table_with 3 5 2) :=
  ⟨(wlock_self_deadlock (table_with 3 5 2) 5 1 (slot_with 3 5 2) rfl rfl).1,
   (wlock_self_deadlock (table_with 3 5 2) 5 1 (slot_with 3 5 2) rfl rfl).2.2
     100 0 [(500, false)]⟩

/-- C5: `wunlock` by a caller other than the writer returns `CELL_EPERM` and changes
nothing; by the writer it returns `CELL_OK` and the slot differs from before only in
`writer`, which is none (0). -/
theorem wunlock_owner_only (m : IdManager) (cpu id : Nat) (e : ID)
    (h : m.GetIDData id = some e) :
    (e.data.writer ≠ cpu → sys_rwlock_wunlock m cpu id = (CELL_EPERM, m)) ∧
    (e.data.writer = cpu →
        (sys_rwlock_wunlock m cpu id).1 = CELL_OK ∧
        (sys_rwlock_wunlock m cpu id).2.GetIDData id =
          some { e with data := { e.data with writer := 0 } }) := by
  constructor
  · intro hw
    simp only [sys_rwlock_wunlock, h, hw, ne_eq, not_false_eq_true, if_true]
  · intro hw
    have hput := IdManager.GetIDData_put_self m id
      { e with data := { e.data with writer := 0 } } e h
    simp only [sys_rwlock_wunlock, h, hw, ne_eq, not_true_eq_false, if_false]
    exact ⟨trivial, hput⟩

/-- C5 at concrete states: caller 6 is refused on a lock owned by 5. -/
theorem wunlock_owner_only_witness :
    sys_rwlock_wunlock (table_with 0 5 0) 6 1 = (CELL_EPERM, table_with 0 5 0) :=
  (wunlock_owner_only (table_with 0 5 0) 6 1 (slot_with 0 5 0) rfl).1 (by decide)

/-- C6: on a resolvable handle `runlock` returns `CELL_EPERM` and changes nothing when
`readers` is zero; otherwise it returns `CELL_OK` and the slot differs from before only
in `readers`, which is one lower.  A non-negative `readers` stays non-negative. -/
theorem runlock_guarded (m : IdManager) (id : Nat) (e : ID)
    (h : m.GetIDData id = some e) :
    (e.data.readers = 0 → sys_rwlock_runlock m id = (CELL_EPERM, m)) ∧
    (e.data.readers ≠ 0 →
        (sys_rwlock_runlock m id).1 = CELL_OK ∧
        (sys_rwlock_runlock m id).2.GetIDData id =
          some { e with data := { e.data with readers := e.data.readers - 1 } }) ∧
    (0 ≤ e.data.readers →
        ∃ e', (sys_rwlock_runlock m id).2.GetIDData id = some e' ∧
          0 ≤ e'.data.readers) := by
  have hput := IdManager.GetIDData_put_self m id
    { e with data := { e.data with readers := e.data.readers - 1 } } e h
  refine ⟨?_, ?_, ?_⟩
  · intro hr
    simp only [sys_rwlock_runlock, h, hr, if_true]
  · intro hr
    simp only [sys_rwlock_runlock, h, hr, if_false]
    exact ⟨trivial, hput⟩
  · intro hpos
    by_cases hr : e.data.readers = 0
    · simp only [sys_rwlock_runlock, h, hr, if_true]
      exact ⟨e, rfl, hpos⟩
    · simp only [sys_rwlock_runlock, h, hr, if_false]
      refine ⟨_, hput, ?_⟩
      show 0 ≤ e.data.readers - 1
      omega

/-- C6 at concrete states: a release without a hold is refused. -/
theorem runlock_guarded_witness :
    sys_rwlock_runlock (table_with 0 0 0) 1 = (CELL_EPERM, table_with 0 0 0) :=
  (runlock_guarded (table_with 0 0 0) 1 (slot_with 0 0 0) rfl).1 rfl

/-! ## Destruction, unknown handles, creation -/

/-- C7: on a resolvable handle `destroy` returns `CELL_EBUSY` exactly when the use
count seen by the call exceeds 2 (a reference besides the table's and the call's own)
or readers, a writer or waiters are present; the table is then unchanged and the
handle resolves to the same slot, in particular when `readers = 1`.  Otherwise it
returns `CELL_OK` and the handle no longer resolves. -/
theorem destroy_busy_iff (m : IdManager) (id : Nat) (e : ID)
    (h : m.GetIDData id = some e) :
    ((sys_rwlock_destroy m id).1 = CELL_EBUSY ↔
        (e.use_count + 1 > 2 ∨ e.data.readers ≠ 0 ∨ e.data.writer ≠ 0
          ∨ e.data.waiters ≠ 0)) ∧
    ((sys_rwlock_destroy m id).1 = CELL_EBUSY →
        (sys_rwlock_destroy m id).2 = m ∧
        (sys_rwlock_destroy m id).2.GetIDData id = some e) ∧
    (e.data.readers = 1 →
        (sys_rwlock_destroy m id).1 = CELL_EBUSY ∧
        (sys_rwlock_destroy m id).2.GetIDData id = some e) ∧
    ((sys_rwlock_destroy m id).1 ≠ CELL_EBUSY →
        (sys_rwlock_destroy m id).1 = CELL_OK ∧
        (sys_rwlock_destroy m id).2.GetIDData id = none) := by
  by_cases hc : e.use_count + 1 > 2 ∨ e.data.readers ≠ 0 ∨ e.data.writer ≠ 0
      ∨ e.data.waiters ≠ 0
  · have hd : sys_rwlock_destroy m id = (CELL_EBUSY, m) := by
      simp only [sys_rwlock_destroy, h, hc, if_true]
    rw [hd]
    exact ⟨⟨fun _ => hc, fun _ => rfl⟩, fun _ => ⟨rfl, h⟩, fun _ => ⟨rfl, h⟩,
      fun hne => absurd rfl hne⟩
  · have hd : sys_rwlock_destroy m id = (CELL_OK, m.RemoveID id) := by
      simp only [sys_rwlock_destroy, h, hc, if_false]
    rw [hd]
    refine ⟨⟨fun hb => ?_, fun hb => absurd hb hc⟩, fun hb => ?_, fun hr => ?_,
      fun _ => ⟨rfl, IdManager.GetIDData_RemoveID_self m id⟩⟩
    · cases hb
    · cases hb
    · exact absurd (Or.inr (Or.inl (by rw [hr]; decide))) hc

/-- C7 at a concrete state: one read hold keeps the lock from being destroyed, and
the handle still resolves to the same slot. -/
theorem destroy_busy_iff_witness :
    (sys_rwlock_destroy (table_with 1 0 0) 1).1 = CELL_EBUSY ∧
    (sys_rwlock_destroy (table_with 1 0 0) 1).2.GetIDData 1 = some (slot_with 1 0 0) :=
  (destroy_busy_iff (table_with 1 0 0) 1 (slot_with 1 0 0) rfl).2.2.1 rfl

/-- C8: on a handle that does not resolve, each of the seven calls returns
`CELL_ESRCH` and leaves the table unchanged, for every caller, timeout, start time,
clock reading and stop flag; `wlock` in particular returns before its deadlock test
and before `waiters++`. -/
theorem unknown_handle_esrch (m : IdManager) (id : Nat)
    (h : m.GetIDData id = none) :
    sys_rwlock_destroy m id = (CELL_ESRCH, m) ∧
    sys_rwlock_tryrlock m id = (CELL_ESRCH, m) ∧
    sys_rwlock_runlock m id = (CELL_ESRCH, m) ∧
    (∀ cpu : Nat, sys_rwlock_trywlock m cpu id = (CELL_ESRCH, m)) ∧
    (∀ cpu : Nat, sys_rwlock_wunlock m cpu id = (CELL_ESRCH, m)) ∧
    (∀ (timeout start_time : Nat) (obs : List (Nat × Bool)),
      sys_rwlock_rlock m id timeout start_time obs = (.done CELL_ESRCH, m)) ∧
    (∀ (cpu timeout start_time : Nat) (obs : List (Nat × Bool)),
      sys_rwlock_wlock m cpu id timeout start_time obs = (.done CELL_ESRCH, m)) := by
  refine ⟨?_, ?_, ?_, ?_, ?_, ?_, ?_⟩
  · simp only [sys_rwlock_destroy, h]
  · simp only [sys_rwlock_tryrlock, h]
  · simp only [sys_rwlock_runlock, h]
  · intro cpu
    simp only [sys_rwlock_trywlock, h]
  · intro cpu
    simp only [sys_rwlock_wunlock, h]
  · intro timeout start_time obs
    simp only [sys_rwlock_rlock, h]
  · intro cpu timeout start_time obs
    simp only [sys_rwlock_wlock, h]

/-- C8 at concrete states: handle 9 is unknown to a table that holds handle 1 with a
writer; a `wlock` on it with an elapsed timeout and the stop flag set still reports
`CELL_ESRCH` and touches nothing. -/
theorem unknown_handle_esrch_witness :
    sys_rwlock_wlock (table_with 0 5 0) 5 9 10 0 [(500, true)]
      = (.done CELL_ESRCH, table_with 0 5 0) :=
  (unknown_handle_esrch (table_with 0 5 0) 9 rfl).2.2.2.2.2.2 5 10 0 [(500, true)]

/-- C9: `create` checks in this order: a null output slot or attribute pointer gives
`CELL_EFAULT`; else a protocol outside the three tags gives `CELL_EINVAL`; else
`pshared != 0x200`, a nonzero `ipc_key` or nonzero `flags` gives `CELL_EINVAL`.  On
these failures the table is unchanged and nothing is written.  `CELL_OK` is returned
exactly when every check passes; then the handle written to the output slot resolves
to a new lock with `readers=0, writer=none, waiters=0`, and every other handle
resolves as before. -/
theorem create_validation (K : sys_sync) (m : IdManager) (rw_lock_id attr : Nat)
    (a : sys_rwlock_attribute_t) :
    ((rw_lock_id = 0 ∨ attr = 0) →
        sys_rwlock_create K m rw_lock_id attr a = (CELL_EFAULT, m, none)) ∧
    (¬ (rw_lock_id = 0 ∨ attr = 0) →
      ¬ (a.protocol = K.SYS_SYNC_FIFO ∨ a.protocol = K.SYS_SYNC_PRIORITY
          ∨ a.protocol = K.SYS_SYNC_PRIORITY_INHERIT) →
        sys_rwlock_create K m rw_lock_id attr a = (CELL_EINVAL, m, none)) ∧
    (¬ (rw_lock_id = 0 ∨ attr = 0) →
      (a.protocol = K.SYS_SYNC_FIFO ∨ a.protocol = K.SYS_SYNC_PRIORITY
          ∨ a.protocol = K.SYS_SYNC_PRIORITY_INHERIT) →
      (a.pshared ≠ 0x200 ∨ a.ipc_key ≠ 0 ∨ a.flags ≠ 0) →
        sys_rwlock_create K m rw_lock_id attr a = (CELL_EINVAL, m, none)) ∧
    ((sys_rwlock_create K m rw_lock_id attr a).1 = CELL_OK ↔
      (rw_lock_id ≠ 0 ∧ attr ≠ 0 ∧
        (a.protocol = K.SYS_SYNC_FIFO ∨ a.protocol = K.SYS_SYNC_PRIORITY
          ∨ a.protocol = K.SYS_SYNC_PRIORITY_INHERIT) ∧
        a.pshared = 0x200 ∧ a.ipc_key = 0 ∧ a.flags = 0)) ∧
    ((sys_rwlock_create K m rw_lock_id attr a).1 = CELL_OK →
      ∃ handle : Nat,
        (sys_rwlock_create K m rw_lock_id attr a).2.2 = some (rw_lock_id, handle) ∧
        (sys_rwlock_create K m rw_lock_id attr a).2.1.GetIDData handle =
          some { data := { protocol := a.protocol, name := a.name_u64, readers := 0,
                           writer := 0, waiters := 0 },
                 use_count := 1 } ∧
        ∀ j, j ≠ handle →
          (sys_rwlock_create K m rw_lock_id attr a).2.1.GetIDData j = m.GetIDData j) := by
  by_cases h1 : rw_lock_id = 0 ∨ attr = 0
  · have hd : sys_rwlock_create K m rw_lock_id attr a = (CELL_EFAULT, m, none) := by
      simp only [sys_rwlock_create, h1, if_true]
    rw [hd]
    refine ⟨fun _ => rfl, fun hn => absurd h1 hn, fun hn => absurd h1 hn,
      ⟨fun hb => (by cases hb), fun hb => ?_⟩, fun hb => (by cases hb)⟩
    rcases h1 with h1 | h1
    · exact absurd h1 hb.1
    · exact absurd h1 hb.2.1
  · by_cases h2 : a.protocol = K.SYS_SYNC_FIFO ∨ a.protocol = K.SYS_SYNC_PRIORITY
        ∨ a.protocol = K.SYS_SYNC_PRIORITY_INHERIT
    · by_cases h3 : a.pshared ≠ 0x200 ∨ a.ipc_key ≠ 0 ∨ a.flags ≠ 0
      · have hd : sys_rwlock_create K m rw_lock_id attr a = (CELL_EINVAL, m, none) := by
          simp only [sys_rwlock_create, h1, h2, h3, if_true, if_false, not_true_eq_false]
        rw [hd]
        refine ⟨fun hn => absurd hn h1, fun _ hn => absurd h2 hn, fun _ _ _ => rfl,
          ⟨fun hb => (by cases hb), fun hb => ?_⟩,
          fun hb => (by cases hb)⟩
        rcases h3 with h3 | h3 | h3
        · exact absurd hb.2.2.2.1 h3
        · exact absurd hb.2.2.2.2.1 h3
        · exact absurd hb.2.2.2.2.2 h3
      · have hd : sys_rwlock_create K m rw_lock_id attr a =
            (CELL_OK, (m.GetNewID (rwlock_t.new a.protocol a.name_u64)).2,
              some (rw_lock_id, (m.GetNewID (rwlock_t.new a.protocol a.name_u64)).1)) := by
          simp only [sys_rwlock_create, h1, h2, h3, if_true, if_false, not_true_eq_false]
        rw [hd]
        push_neg at h1 h3
        refine ⟨fun hn => absurd hn (by push_neg; exact h1), fun _ hn => absurd h2 hn,
          fun _ _ hn => ?_, ⟨fun _ => ⟨h1.1, h1.2, h2, h3⟩, fun _ => rfl⟩, fun _ => ?_⟩
        · rcases hn with hn | hn | hn
          · exact absurd h3.1 hn
          · exact absurd h3.2.1 hn
          · exact absurd h3.2.2 hn
        · refine ⟨m.m_cur_id, rfl, ?_, ?_⟩
          · simp [IdManager.GetNewID, IdManager.GetIDData, IdManager.find, rwlock_t.new]
          · intro j hj
            have hj2 : ¬ m.m_cur_id = j := fun hx => hj hx.symm
            simp [IdManager.GetNewID, IdManager.GetIDData, IdManager.find, hj2]
    · have hd : sys_rwlock_create K m rw_lock_id attr a = (CELL_EINVAL, m, none) := by
        simp only [sys_rwlock_create, h1, h2, if_true, if_false, not_false_eq_true]
      rw [hd]
      exact ⟨fun hn => absurd hn h1, fun _ _ => rfl, fun _ hn => absurd hn h2,
        ⟨fun hb => (by cases hb), fun hb => absurd hb.2.2.1 h2⟩,
        fun hb => (by cases hb)⟩

/-- C9 at concrete values: a well-formed request on an empty table registers handle 1
and writes it to the output slot at address 64. -/
theorem create_validation_witness :
    (sys_rwlock_create sync_sample table_empty 64 128 attr_sample).1 = CELL_OK :=
  (create_validation sync_sample table_empty 64 128 attr_sample).2.2.2.1.2
    ⟨by decide, by decide, Or.inl rfl, rfl, rfl, rfl⟩

/-! ## The wait loops -/

theorem rlock_loop_ok (timeout start_time : Nat) (obs : List (Nat × Bool))
    (l : rwlock_t) (hl : l.ok) :
    (rlock_loop timeout start_time l obs).1 ≠ .assert_failed ∧
    (rlock_loop timeout start_time l obs).2.ok := by
  induction obs with
  | nil =>
    by_cases hc : l.writer ≠ 0 ∨ l.waiters ≠ 0
    · simp only [rlock_loop, hc, if_true]
      exact ⟨by decide, hl⟩
    · simp only [rlock_loop, hc, if_false]
      push_neg at hc
      refine ⟨by decide, ?_, fun _ => hc.1, hl.2.2⟩
      show 0 ≤ l.readers + 1
      have := hl.1
      omega
  | cons o rest ih =>
    obtain ⟨now, stopped⟩ := o
    by_cases hc : l.writer ≠ 0 ∨ l.waiters ≠ 0
    · by_cases ht : timed_out timeout start_time now = true
      · simp only [rlock_loop, rlock_check, hc, ht, if_true]
        exact ⟨by simp, hl⟩
      · by_cases hs : stopped = true
        · simp only [rlock_loop, rlock_check, hc, ht, hs, if_true, if_false]
          exact ⟨by simp, hl⟩
        · simp only [rlock_loop, rlock_check, hc, ht, hs, if_true, if_false]
          exact ih
    · simp only [rlock_loop, rlock_check, hc, if_false]
      push_neg at hc
      refine ⟨by simp, ?_, fun _ => hc.1, hl.2.2⟩
      show 0 ≤ l.readers + 1
      have := hl.1
      omega

theorem wlock_loop_ok (cpu timeout start_time : Nat) (obs : List (Nat × Bool))
    (l : rwlock_t) (hl : l.ok) (hw : 1 ≤ l.waiters) :
    (wlock_loop cpu timeout start_time l obs).1 ≠ .assert_failed ∧
    (wlock_loop cpu timeout start_time l obs).2.ok := by
  have hge : l.waiters - 1 ≥ 0 := by omega
  have hacq : ({ l with writer := cpu, waiters := l.waiters - 1 } : rwlock_t).ok ∨
      (l.readers ≠ 0 ∨ l.writer ≠ 0) := by
    by_cases hc : l.readers ≠ 0 ∨ l.writer ≠ 0
    · exact Or.inr hc
    · push_neg at hc
      refine Or.inl ⟨hl.1, fun hp => ?_, hge⟩
      have : l.readers = 0 := hc.1
      exact absurd hp (by show ¬ 0 < l.readers; omega)
  induction obs with
  | nil =>
    by_cases hc : l.readers ≠ 0 ∨ l.writer ≠ 0
    · simp only [wlock_loop, hc, if_true]
      exact ⟨by decide, hl⟩
    · simp only [wlock_loop, wlock_acquire, hc, hge, if_true, if_false]
      exact ⟨by simp, hacq.resolve_right hc⟩
  | cons o rest ih =>
    obtain ⟨now, stopped⟩ := o
    by_cases hc : l.readers ≠ 0 ∨ l.writer ≠ 0
    · by_cases ht : timed_out timeout start_time now = true
      · simp only [wlock_loop, wlock_check, hc, ht, hge, if_true]
        exact ⟨by simp, hl.1, hl.2.1, hge⟩
      · by_cases hs : stopped = true
        · simp only [wlock_loop, wlock_check, hc, ht, hs, if_true, if_false]
          exact ⟨by simp, hl⟩
        · simp only [wlock_loop, wlock_check, hc, ht, hs, if_true, if_false]
          exact ih
    · simp only [wlock_loop, wlock_check, wlock_acquire, hc, hge, if_true, if_false]
      exact ⟨by simp, hacq.resolve_right hc⟩

theorem finish_ok (m : IdManager) (id : Nat) (e : ID) (r : Ret × rwlock_t)
    (h : m.GetIDData id = some e) (hr : r.1 ≠ .assert_failed) :
    (finish m id e r).1 = r.1 ∧
    ∃ e', (finish m id e r).2.GetIDData id = some e' ∧ e'.data = r.2 := by
  obtain ⟨x, l⟩ := r
  cases x with
  | done s =>
    exact ⟨rfl, _, IdManager.GetIDData_put_self m id _ e h, rfl⟩
  | blocked =>
    exact ⟨rfl, _, IdManager.GetIDData_put_self m id _ e h, rfl⟩
  | assert_failed => exact absurd rfl hr

/-! ## Every call keeps the invariant -/

theorem Call.run_ok (m : IdManager) (id : Nat) (e : ID) (c : Call)
    (h : m.GetIDData id = some e) (hl : e.data.ok) :
    (c.run m id).1 ≠ .assert_failed ∧
    ∃ e', (c.run m id).2.GetIDData id = some e' ∧ e'.data.ok := by
  cases c with
  | rlock timeout start_time obs =>
    have hloop := rlock_loop_ok timeout start_time obs e.data hl
    have hfin := finish_ok m id e (rlock_loop timeout start_time e.data obs) h hloop.1
    simp only [Call.run, sys_rwlock_rlock, h]
    obtain ⟨h1, e', h2, h3⟩ := hfin
    exact ⟨h1 ▸ hloop.1, e', h2, h3 ▸ hloop.2⟩
  | tryrlock =>
    by_cases hc : e.data.writer ≠ 0 ∨ e.data.waiters ≠ 0
    · simp only [Call.run, sys_rwlock_tryrlock, h, hc, if_true, Prod.map]
      exact ⟨by simp, e, rfl, hl⟩
    · simp only [Call.run, sys_rwlock_tryrlock, h, hc, if_false, Prod.map]
      push_neg at hc
      refine ⟨by simp, _, IdManager.GetIDData_put_self m id _ e h, ?_, fun _ => hc.1,
        hl.2.2⟩
      show 0 ≤ e.data.readers + 1
      have := hl.1
      omega
  | runlock =>
    by_cases hc : e.data.readers = 0
    · simp only [Call.run, sys_rwlock_runlock, h, hc, if_true, Prod.map]
      exact ⟨by simp, e, rfl, hl⟩
    · simp only [Call.run, sys_rwlock_runlock, h, hc, if_false, Prod.map]
      have h0 := hl.1
      have hpos : 0 < e.data.readers := by omega
      refine ⟨by simp, _, IdManager.GetIDData_put_self m id _ e h, ?_, fun _ => hl.2.1 hpos,
        hl.2.2⟩
      show 0 ≤ e.data.readers - 1
      omega
  | wlock cpu timeout start_time obs =>
    by_cases hc : e.data.writer = cpu
    · simp only [Call.run, sys_rwlock_wlock, h, wlock_enter, hc, if_true]
      exact ⟨by simp, e, rfl, hl⟩
    · have hq := hl.2.2
      have hgt : e.data.waiters + 1 > 0 := by omega
      have hl1 : ({ e.data with waiters := e.data.waiters + 1 } : rwlock_t).ok :=
        ⟨hl.1, hl.2.1, by show 0 ≤ e.data.waiters + 1; omega⟩
      have hloop := wlock_loop_ok cpu timeout start_time obs _ hl1
        (by show 1 ≤ e.data.waiters + 1; omega)
      have hfin := finish_ok m id e _ h hloop.1
      simp only [Call.run, sys_rwlock_wlock, h, wlock_enter, hc, hgt, if_true, if_false]
      obtain ⟨h1, e', h2, h3⟩ := hfin
      exact ⟨h1 ▸ hloop.1, e', h2, h3 ▸ hloop.2⟩
  | trywlock cpu =>
    by_cases hc : e.data.writer = cpu
    · simp only [Call.run, sys_rwlock_trywlock, h, hc, if_true, Prod.map]
      exact ⟨by simp, e, rfl, hl⟩
    · by_cases hb : e.data.readers ≠ 0 ∨ e.data.writer ≠ 0 ∨ e.data.waiters ≠ 0
      · simp only [Call.run, sys_rwlock_trywlock, h, hc, hb, if_true, if_false, Prod.map]
        exact ⟨by simp, e, rfl, hl⟩
      · simp only [Call.run, sys_rwlock_trywlock, h, hc, hb, if_false, Prod.map]
        push_neg at hb
        refine ⟨by simp, _, IdManager.GetIDData_put_self m id _ e h, hl.1, fun hp => ?_,
          hl.2.2⟩
        have : e.data.readers = 0 := hb.1
        exact absurd hp (by show ¬ 0 < e.data.readers; omega)
  | wunlock cpu =>
    by_cases hc : e.data.writer = cpu
    · simp only [Call.run, sys_rwlock_wunlock, h, hc, ne_eq, not_true_eq_false, if_false,
        Prod.map]
      exact ⟨by simp, _, IdManager.GetIDData_put_self m id _ e h, hl.1, fun _ => rfl,
        hl.2.2⟩
    · simp only [Call.run, sys_rwlock_wunlock, h, hc, ne_eq, not_false_eq_true, if_true,
        Prod.map]
      exact ⟨by simp, e, rfl, hl⟩

theorem run_calls_ok (id : Nat) (cs : List Call) :
    ∀ (m : IdManager) (e : ID), m.GetIDData id = some e → e.data.ok →
      (run_calls m id cs).length = cs.length ∧
      ∀ r ∈ run_calls m id cs, r.1 ≠ .assert_failed ∧
        ∃ e', r.2.GetIDData id = some e' ∧ e'.data.ok := by
  induction cs with
  | nil =>
    intro m e _ _
    simp [run_calls]
  | cons c rest ih =>
    intro m e h hl
    obtain ⟨h1, e', h2, h3⟩ := Call.run_ok m id e c h hl
    obtain ⟨ih1, ih2⟩ := ih (c.run m id).2 e' h2 h3
    simp only [run_calls, h1, if_false, List.length_cons, ih1, List.mem_cons, true_and]
    intro r hr
    rcases hr with hr | hr
    · rw [hr]
      exact ⟨h1, e', h2, h3⟩
    · exact ih2 r hr

/-! ## Read and write holds never coexist -/

/-- C1: start from a lock with `readers=0`, `writer=none`, `waiters=0` and perform any
finite sequence of `rlock`, `tryrlock`, `runlock`, `wlock`, `trywlock`, `wunlock`
calls on its handle, with any callers, timeouts, clock readings and stop flags.  Every
call is performed (no assertion fails), and after every call the handle resolves to
a lock with `readers >= 0` in which `readers > 0` implies `writer == none`. -/
theorem read_write_exclusion (m : IdManager) (id : Nat) (e : ID) (cs : List Call)
    (h : m.GetIDData id = some e) (hr : e.data.readers = 0) (hw : e.data.writer = 0)
    (hq : e.data.waiters = 0) :
    (run_calls m id cs).length = cs.length ∧
    ∀ r ∈ run_calls m id cs,
      ∃ e', r.2.GetIDData id = some e' ∧
        0 ≤ e'.data.readers ∧ (0 < e'.data.readers → e'.data.writer = 0) := by
  have hl : e.data.ok := ⟨by rw [hr], fun _ => hw, by rw [hq]⟩
  obtain ⟨h1, h2⟩ := run_calls_ok id cs m e h hl
  refine ⟨h1, fun r hmem => ?_⟩
  obtain ⟨_, e', h3, h4⟩ := h2 r hmem
  exact ⟨e', h3, h4.1, h4.2.1⟩

/-- C1 on a concrete run: two read holds, a refused write attempt, a blocking write
attempt cut short by the stop flag, two releases, a write hold by caller 5. -/
theorem read_write_exclusion_witness :
    (run_calls (table_with 0 0 0) 1
        [.tryrlock, .tryrlock, .trywlock 5, .wlock 6 0 0 [(3, true)], .runlock, .runlock,
         .wlock 5 0 0 []]).length = 7 ∧
    ∀ r ∈ run_calls (table_with 0 0 0) 1
        [.tryrlock, .tryrlock, .trywlock 5, .wlock 6 0 0 [(3, true)], .runlock, .runlock,
         .wlock 5 0 0 []],
      ∃ e', r.2.GetIDData 1 = some e' ∧
        0 ≤ e'.data.readers ∧ (0 < e'.data.readers → e'.data.writer = 0) :=
  read_write_exclusion (table_with 0 0 0) 1 (slot_with 0 0 0) _ rfl rfl rfl rfl

/-! ## Write acquisition through the loop -/

theorem wlock_check_acquired (l l' : rwlock_t) (cpu timeout start_time now : Nat)
    (stopped : Bool)
    (h : wlock_check l cpu timeout start_time now stopped = .ret .acquired l') :
    l.readers = 0 ∧ l.writer = 0 ∧
      l' = { l with writer := cpu, waiters := l.waiters - 1 } := by
  by_cases hc : l.readers ≠ 0 ∨ l.writer ≠ 0
  · exfalso
    simp only [wlock_check, hc, if_true] at h
    split at h
    · split at h
      · cases h
      · cases h
    · split at h
      · cases h
      · cases h
  · simp only [wlock_check, wlock_acquire, hc, if_false] at h
    push_neg at hc
    split at h
    · injection h with _ h2
      exact ⟨hc.1, hc.2, h2.symm⟩
    · cases h

theorem wlock_check_clear (l : rwlock_t) (cpu timeout start_time now : Nat)
    (stopped : Bool) (hr : l.readers = 0) (hw : l.writer = 0) (hq : 1 ≤ l.waiters) :
    wlock_check l cpu timeout start_time now stopped =
      .ret .acquired { l with writer := cpu, waiters := l.waiters - 1 } := by
  have hc : ¬ (l.readers ≠ 0 ∨ l.writer ≠ 0) := by
    push_neg
    exact ⟨hr, hw⟩
  have hge : l.waiters - 1 ≥ 0 := by omega
  simp only [wlock_check, wlock_acquire, hc, hge, if_true, if_false]

theorem wlock_loop_clear (l : rwlock_t) (cpu timeout start_time : Nat)
    (obs : List (Nat × Bool)) (hr : l.readers = 0) (hw : l.writer = 0)
    (hq : 1 ≤ l.waiters) :
    wlock_loop cpu timeout start_time l obs =
      (.done CELL_OK, { l with writer := cpu, waiters := l.waiters - 1 }) := by
  have hc : ¬ (l.readers ≠ 0 ∨ l.writer ≠ 0) := by
    push_neg
    exact ⟨hr, hw⟩
  have hge : l.waiters - 1 ≥ 0 := by omega
  cases obs with
  | nil => simp only [wlock_loop, wlock_acquire, hc, hge, if_true, if_false, Exit.status]
  | cons o rest =>
    obtain ⟨now, stopped⟩ := o
    simp only [wlock_loop, wlock_check_clear l cpu timeout start_time now stopped hr hw hq,
      Exit.status]

theorem wlock_loop_held (l : rwlock_t) (cpu timeout start_time : Nat)
    (obs : List (Nat × Bool)) (hc : l.readers ≠ 0 ∨ l.writer ≠ 0)
    (hs : ∀ o ∈ obs, o.2 = false) :
    (wlock_loop cpu timeout start_time l obs).1 ≠ .done CELL_OK := by
  induction obs with
  | nil => simp [wlock_loop, hc]
  | cons o rest ih =>
    obtain ⟨now, stopped⟩ := o
    have hst : stopped = false := hs (now, stopped) (List.mem_cons_self _ _)
    have hrest : ∀ o ∈ rest, o.2 = false := fun o ho => hs o (List.mem_cons_of_mem _ ho)
    subst hst
    by_cases ht : timed_out timeout start_time now = true
    · by_cases hge : l.waiters - 1 ≥ 0
      · simp [wlock_loop, wlock_check, hc, ht, hge, Exit.status]
      · simp [wlock_loop, wlock_check, hc, ht, hge]
    · simp only [wlock_loop, wlock_check, hc, ht, if_true, if_false, Bool.false_eq_true]
      exact ih hrest

/-- C10: for a `wlock` call by a caller that is not the current writer.  A loop check
leaves through the acquisition only if it found `readers == 0` and `writer == none`,
and the lock it leaves differs from the one it found only in `writer`, which is the
caller, and in `waiters`, which is one lower.  Conversely a check that finds
`readers == 0` and `writer == none` acquires whatever the number of pending waiters
(the count includes the call's own increment, so it is at least 1).  For the whole
call: on a lock with no readers and no writer it returns `CELL_OK` with `writer` set
to the caller and `waiters` back at its value before the call, however many other
waiters are pending; on a lock that has readers or a writer, and with the stop flag
never set, it does not return `CELL_OK`. -/
theorem wlock_acquisition (m : IdManager) (cpu id : Nat) (e : ID)
    (h : m.GetIDData id = some e) (hw : e.data.writer ≠ cpu) :
    (∀ (l l' : rwlock_t) (timeout start_time now : Nat) (stopped : Bool),
      wlock_check l cpu timeout start_time now stopped = .ret .acquired l' →
        l.readers = 0 ∧ l.writer = 0 ∧ l'.writer = cpu ∧ l'.waiters = l.waiters - 1 ∧
        l'.readers = l.readers ∧ l'.protocol = l.protocol ∧ l'.name = l.name) ∧
    (∀ (l : rwlock_t) (timeout start_time now : Nat) (stopped : Bool),
      l.readers = 0 → l.writer = 0 → 1 ≤ l.waiters →
        wlock_check l cpu timeout start_time now stopped =
          .ret .acquired { l with writer := cpu, waiters := l.waiters - 1 }) ∧
    (e.data.readers = 0 → e.data.writer = 0 → 0 ≤ e.data.waiters →
      ∀ (timeout start_time : Nat) (obs : List (Nat × Bool)),
        (sys_rwlock_wlock m cpu id timeout start_time obs).1 = .done CELL_OK ∧
        (sys_rwlock_wlock m cpu id timeout start_time obs).2.GetIDData id =
          some { e with data := { e.data with writer := cpu } }) ∧
    ((e.data.readers ≠ 0 ∨ e.data.writer ≠ 0) →
      ∀ (timeout start_time : Nat) (obs : List (Nat × Bool)),
        (∀ o ∈ obs, o.2 = false) →
        (sys_rwlock_wlock m cpu id timeout start_time obs).1 ≠ .done CELL_OK) := by
  refine ⟨?_, ?_, ?_, ?_⟩
  · intro l l' timeout start_time now stopped hchk
    obtain ⟨h1, h2, h3⟩ := wlock_check_acquired l l' cpu timeout start_time now stopped hchk
    subst h3
    exact ⟨h1, h2, rfl, rfl, rfl, rfl, rfl⟩
  · intro l timeout start_time now stopped hr hwr hq
    exact wlock_check_clear l cpu timeout start_time now stopped hr hwr hq
  · intro hr hwr hq timeout start_time obs
    have hgt : e.data.waiters + 1 > 0 := by omega
    have hloop := wlock_loop_clear { e.data with waiters := e.data.waiters + 1 } cpu timeout
      start_time obs hr hwr (by show 1 ≤ e.data.waiters + 1; omega)
    have hback : e.data.waiters + 1 - 1 = e.data.waiters := by omega
    simp only [sys_rwlock_wlock, h, wlock_enter, hw, hgt, if_true, if_false, hloop, finish,
      hback]
    exact ⟨trivial, IdManager.GetIDData_put_self m id _ e h⟩
  · intro hc timeout start_time obs hs
    by_cases hgt : e.data.waiters + 1 > 0
    · have hloop := wlock_loop_held { e.data with waiters := e.data.waiters + 1 } cpu timeout
        start_time obs hc hs
      simp only [sys_rwlock_wlock, h, wlock_enter, hw, hgt, if_true, if_false, finish]
      split
      · rename_i s heq
        intro hx
        apply hloop
        rw [heq]
        exact hx
      · simp
      · simp
    · simp [sys_rwlock_wlock, h, wlock_enter, hw, hgt]

/-- C10 at concrete states: caller 5 asks for a free lock on which three other writers
are recorded as waiting; it becomes the writer and `waiters` is 3 again. -/
theorem wlock_acquisition_witness :
    (sys_rwlock_wlock (table_with 0 0 3) 5 1 100 0 [(500, true)]).1 = .done CELL_OK ∧
    (sys_rwlock_wlock (table_with 0 0 3) 5 1 100 0 [(500, true)]).2.GetIDData 1 =
      some (slot_with 0 5 3) :=
  (wlock_acquisition (table_with 0 0 3) 5 1 (slot_with 0 0 3) rfl (by decide)).2.2.1
    rfl rfl (by decide) 100 0 [(500, true)]

/-! ## Further facts about the table and the loops -/

theorem IdManager.setSlot_same (id : Nat) (e : ID) (t : List (Nat × ID))
    (h : IdManager.find id t = some e) : IdManager.setSlot id e t = t := by
  induction t with
  | nil => rfl
  | cons p rest ih =>
    obtain ⟨k, y⟩ := p
    by_cases hk : k = id
    · simp only [IdManager.find, hk, if_true, Option.some.injEq] at h
      simp only [IdManager.setSlot, hk, if_true, h]
    · simp only [IdManager.find, hk, if_false] at h
      simp only [IdManager.setSlot, hk, if_false, ih h]

theorem IdManager.put_same (m : IdManager) (id : Nat) (e : ID)
    (h : m.GetIDData id = some e) : m.put id e = m := by
  cases m with
  | mk c t =>
    simp only [IdManager.put]
    rw [IdManager.setSlot_same id e t h]

theorem timed_out_zero (start_time now : Nat) : timed_out 0 start_time now = false := by
  simp [timed_out]

theorem timed_out_iff (timeout start_time now : Nat) :
    timed_out timeout start_time now = true ↔
      timeout ≠ 0 ∧ timeout < u64_sub now start_time := by
  simp [timed_out]

theorem rlock_loop_held (timeout start_time : Nat) (obs : List (Nat × Bool))
    (l : rwlock_t) (hc : l.writer ≠ 0 ∨ l.waiters ≠ 0) :
    (rlock_loop timeout start_time l obs).2 = l ∧
    ((∀ o ∈ obs, o.2 = false) →
      (rlock_loop timeout start_time l obs).1 ≠ .done CELL_OK) := by
  induction obs with
  | nil => simp [rlock_loop, hc]
  | cons o rest ih =>
    obtain ⟨now, stopped⟩ := o
    by_cases ht : timed_out timeout start_time now = true
    · simp [rlock_loop, rlock_check, hc, ht, Exit.status]
    · by_cases hs : stopped = true
      · simp [rlock_loop, rlock_check, hc, ht, hs, Exit.status]
      · simp only [rlock_loop, rlock_check, hc, ht, hs, if_true, if_false]
        refine ⟨ih.1, fun hall => ih.2 fun o ho => hall o (List.mem_cons_of_mem _ ho)⟩

theorem rlock_loop_skip (timeout start_time : Nat) (pre rest : List (Nat × Bool))
    (l : rwlock_t) (hc : l.writer ≠ 0 ∨ l.waiters ≠ 0)
    (hpre : ∀ o ∈ pre, o.2 = false ∧ timed_out timeout start_time o.1 = false) :
    rlock_loop timeout start_time l (pre ++ rest) = rlock_loop timeout start_time l rest := by
  induction pre with
  | nil => rfl
  | cons o more ih =>
    obtain ⟨now, stopped⟩ := o
    obtain ⟨hs, ht⟩ := hpre (now, stopped) (List.mem_cons_self _ _)
    have hs' : stopped = false := hs
    subst hs'
    have ht' : timed_out timeout start_time now = false := ht
    simp only [List.cons_append, rlock_loop, rlock_check, hc, ht', if_true, if_false,
      Bool.false_eq_true]
    exact ih fun o ho => hpre o (List.mem_cons_of_mem _ ho)

theorem wlock_loop_skip (cpu timeout start_time : Nat) (pre rest : List (Nat × Bool))
    (l : rwlock_t) (hc : l.readers ≠ 0 ∨ l.writer ≠ 0)
    (hpre : ∀ o ∈ pre, o.2 = false ∧ timed_out timeout start_time o.1 = false) :
    wlock_loop cpu timeout start_time l (pre ++ rest) =
      wlock_loop cpu timeout start_time l rest := by
  induction pre with
  | nil => rfl
  | cons o more ih =>
    obtain ⟨now, stopped⟩ := o
    obtain ⟨hs, ht⟩ := hpre (now, stopped) (List.mem_cons_self _ _)
    have hs' : stopped = false := hs
    subst hs'
    have ht' : timed_out timeout start_time now = false := ht
    simp only [List.cons_append, wlock_loop, wlock_check, hc, ht', if_true, if_false,
      Bool.false_eq_true]
    exact ih fun o ho => hpre o (List.mem_cons_of_mem _ ho)

theorem wlock_loop_timeout (cpu timeout start_time : Nat) (obs : List (Nat × Bool))
    (l : rwlock_t) (h : (wlock_loop cpu timeout start_time l obs).1 = .done CELL_ETIMEDOUT) :
    (wlock_loop cpu timeout start_time l obs).2 = { l with waiters := l.waiters - 1 } ∧
    timeout ≠ 0 := by
  induction obs with
  | nil =>
    by_cases hc : l.readers ≠ 0 ∨ l.writer ≠ 0
    · simp [wlock_loop, hc] at h
    · by_cases hge : l.waiters - 1 ≥ 0
      · simp [wlock_loop, wlock_acquire, hc, hge, Exit.status] at h
      · simp [wlock_loop, wlock_acquire, hc, hge] at h
  | cons o rest ih =>
    obtain ⟨now, stopped⟩ := o
    by_cases hc : l.readers ≠ 0 ∨ l.writer ≠ 0
    · by_cases ht : timed_out timeout start_time now = true
      · by_cases hge : l.waiters - 1 ≥ 0
        · simp only [wlock_loop, wlock_check, hc, ht, hge, if_true]
          exact ⟨trivial, ((timed_out_iff _ _ _).1 ht).1⟩
        · simp [wlock_loop, wlock_check, hc, ht, hge] at h
      · by_cases hs : stopped = true
        · simp [wlock_loop, wlock_check, hc, ht, hs, Exit.status] at h
        · simp only [wlock_loop, wlock_check, hc, ht, hs, if_true, if_false] at h ⊢
          exact ih h
    · by_cases hge : l.waiters - 1 ≥ 0
      · simp [wlock_loop, wlock_check, wlock_acquire, hc, hge, Exit.status] at h
      · simp [wlock_loop, wlock_check, wlock_acquire, hc, hge] at h

theorem finish_fst (m : IdManager) (id : Nat) (e : ID) (r : Ret × rwlock_t) :
    (finish m id e r).1 = r.1 := by
  obtain ⟨x, l⟩ := r
  cases x <;> rfl

theorem finish_done (m : IdManager) (id : Nat) (e : ID) (r : Ret × rwlock_t) (s : Status)
    (h : r.1 = .done s) :
    finish m id e r = (.done s, m.put id { e with data := r.2 }) := by
  obtain ⟨x, l⟩ := r
  cases h
  rfl

theorem wlock_entered (m : IdManager) (cpu id timeout start_time : Nat)
    (obs : List (Nat × Bool)) (e : ID) (h : m.GetIDData id = some e)
    (hw : e.data.writer ≠ cpu) (hq : 0 ≤ e.data.waiters) :
    sys_rwlock_wlock m cpu id timeout start_time obs =
      finish m id e (wlock_loop cpu timeout start_time
        { e.data with waiters := e.data.waiters + 1 } obs) := by
  have hgt : e.data.waiters + 1 > 0 := by omega
  simp only [sys_rwlock_wlock, h, wlock_enter, hw, hgt, if_true, if_false]

theorem wlock_check_wait (l l' : rwlock_t) (cpu timeout start_time now : Nat)
    (stopped : Bool) (h : wlock_check l cpu timeout start_time now stopped = .wait l') :
    l' = l := by
  by_cases hge : l.waiters - 1 ≥ 0 <;>
    by_cases hc : l.readers ≠ 0 ∨ l.writer ≠ 0 <;>
    by_cases ht : timed_out timeout start_time now = true <;>
    by_cases hs : stopped = true <;>
    simp [wlock_check, wlock_acquire, hc, ht, hs, hge] at h <;>
    exact h.symm

theorem wlock_check_timeout (l l' : rwlock_t) (cpu timeout start_time now : Nat)
    (stopped : Bool)
    (h : wlock_check l cpu timeout start_time now stopped = .ret .timeout l') :
    l' = { l with waiters := l.waiters - 1 } := by
  by_cases hge : l.waiters - 1 ≥ 0 <;>
    by_cases hc : l.readers ≠ 0 ∨ l.writer ≠ 0 <;>
    by_cases ht : timed_out timeout start_time now = true <;>
    by_cases hs : stopped = true <;>
    simp [wlock_check, wlock_acquire, hc, ht, hs, hge] at h <;>
    exact h.symm

theorem rlock_loop_no_assert (timeout start_time : Nat) (obs : List (Nat × Bool))
    (l : rwlock_t) : (rlock_loop timeout start_time l obs).1 ≠ .assert_failed := by
  induction obs with
  | nil =>
    by_cases hc : l.writer ≠ 0 ∨ l.waiters ≠ 0 <;> simp [rlock_loop, hc]
  | cons o rest ih =>
    obtain ⟨now, stopped⟩ := o
    by_cases hc : l.writer ≠ 0 ∨ l.waiters ≠ 0
    · by_cases ht : timed_out timeout start_time now = true
      · simp [rlock_loop, rlock_check, hc, ht]
      · by_cases hs : stopped = true
        · simp [rlock_loop, rlock_check, hc, ht, hs]
        · simp only [rlock_loop, rlock_check, hc, ht, hs, if_true, if_false]
          exact ih
    · simp [rlock_loop, rlock_check, hc]

theorem rlock_loop_timeout (timeout start_time : Nat) (obs : List (Nat × Bool))
    (l : rwlock_t) (h : (rlock_loop timeout start_time l obs).1 = .done CELL_ETIMEDOUT) :
    timeout ≠ 0 := by
  induction obs with
  | nil =>
    by_cases hc : l.writer ≠ 0 ∨ l.waiters ≠ 0 <;> simp [rlock_loop, hc] at h
  | cons o rest ih =>
    obtain ⟨now, stopped⟩ := o
    by_cases hc : l.writer ≠ 0 ∨ l.waiters ≠ 0
    · by_cases ht : timed_out timeout start_time now = true
      · exact ((timed_out_iff _ _ _).1 ht).1
      · by_cases hs : stopped = true
        · simp [rlock_loop, rlock_check, hc, ht, hs, Exit.status] at h
        · simp only [rlock_loop, rlock_check, hc, ht, hs, if_true, if_false] at h
          exact ih h
    · simp [rlock_loop, rlock_check, hc, Exit.status] at h

theorem rlock_check_timeout (l l' : rwlock_t) (timeout start_time now : Nat)
    (stopped : Bool)
    (h : rlock_check l timeout start_time now stopped = .ret .timeout l') :
    (l.writer ≠ 0 ∨ l.waiters ≠ 0) ∧ timed_out timeout start_time now = true ∧ l' = l := by
  by_cases hc : l.writer ≠ 0 ∨ l.waiters ≠ 0 <;>
    by_cases ht : timed_out timeout start_time now = true <;>
    by_cases hs : stopped = true <;>
    simp [rlock_check, hc, ht, hs] at h
  all_goals exact ⟨hc, ht, h.symm⟩

theorem wlock_check_timeout_only (l l' : rwlock_t) (cpu timeout start_time now : Nat)
    (stopped : Bool)
    (h : wlock_check l cpu timeout start_time now stopped = .ret .timeout l') :
    (l.readers ≠ 0 ∨ l.writer ≠ 0) ∧ timed_out timeout start_time now = true := by
  by_cases hge : l.waiters - 1 ≥ 0 <;>
    by_cases hc : l.readers ≠ 0 ∨ l.writer ≠ 0 <;>
    by_cases ht : timed_out timeout start_time now = true <;>
    by_cases hs : stopped = true <;>
    simp [wlock_check, wlock_acquire, hc, ht, hs, hge] at h
  all_goals exact ⟨hc, ht⟩

theorem wlock_loop_no_deadlk (cpu timeout start_time : Nat) (obs : List (Nat × Bool))
    (l : rwlock_t) : (wlock_loop cpu timeout start_time l obs).1 ≠ .done CELL_EDEADLK := by
  induction obs with
  | nil =>
    by_cases hc : l.readers ≠ 0 ∨ l.writer ≠ 0
    · simp [wlock_loop, hc]
    · by_cases hge : l.waiters - 1 ≥ 0 <;>
        simp [wlock_loop, wlock_acquire, hc, hge, Exit.status]
  | cons o rest ih =>
    obtain ⟨now, stopped⟩ := o
    by_cases hc : l.readers ≠ 0 ∨ l.writer ≠ 0
    · by_cases ht : timed_out timeout start_time now = true
      · by_cases hge : l.waiters - 1 ≥ 0 <;>
          simp [wlock_loop, wlock_check, hc, ht, hge, Exit.status]
      · by_cases hs : stopped = true
        · simp [wlock_loop, wlock_check, hc, ht, hs, Exit.status]
        · simp only [wlock_loop, wlock_check, hc, ht, hs, if_true, if_false]
          exact ih
    · by_cases hge : l.waiters - 1 ≥ 0 <;>
        simp [wlock_loop, wlock_check, wlock_acquire, hc, hge, Exit.status]

/-! ## Timeouts and the stop signal -/

/-- C11: a `wlock` call that returns `CELL_ETIMEDOUT` has passed `waiters++` (the caller
is not the writer), and it leaves the whole table as it found it: `waiters` is back at
its value before the call and `writer` and `readers` are untouched.  Step by step: the
entry adds exactly one to `waiters`, a pass that reaches `cv.wait_for` changes nothing,
and the pass that times out takes exactly one off `waiters` and changes nothing else. -/
theorem wlock_timeout_net_zero (m : IdManager) (cpu id timeout start_time : Nat)
    (obs : List (Nat × Bool)) (e : ID) (h : m.GetIDData id = some e)
    (hret : (sys_rwlock_wlock m cpu id timeout start_time obs).1 = .done CELL_ETIMEDOUT) :
    (sys_rwlock_wlock m cpu id timeout start_time obs).2 = m ∧
    wlock_enter e.data cpu = some (.inr { e.data with waiters := e.data.waiters + 1 }) ∧
    (∀ (l l' : rwlock_t) (now : Nat) (stopped : Bool),
      wlock_check l cpu timeout start_time now stopped = .wait l' → l' = l) ∧
    (∀ (l l' : rwlock_t) (now : Nat) (stopped : Bool),
      wlock_check l cpu timeout start_time now stopped = .ret .timeout l' →
        l' = { l with waiters := l.waiters - 1 }) := by
  have hw : e.data.writer ≠ cpu := by
    intro hw
    simp [sys_rwlock_wlock, h, wlock_enter, hw] at hret
  have hgt : e.data.waiters + 1 > 0 := by
    by_contra hgt
    simp [sys_rwlock_wlock, h, wlock_enter, hw, hgt] at hret
  have hent : wlock_enter e.data cpu =
      some (.inr { e.data with waiters := e.data.waiters + 1 }) := by
    simp only [wlock_enter, hw, hgt, if_true, if_false]
  refine ⟨?_, hent, ?_, ?_⟩
  · simp only [sys_rwlock_wlock, h, hent] at hret ⊢
    rw [finish_fst] at hret
    rw [finish_done _ _ _ _ _ hret, (wlock_loop_timeout _ _ _ _ _ hret).1]
    have hback : e.data.waiters + 1 - 1 = e.data.waiters := by omega
    simp only [hback]
    exact IdManager.put_same m id e h
  · intro l l' now stopped hchk
    exact wlock_check_wait l l' cpu timeout start_time now stopped hchk
  · intro l l' now stopped hchk
    exact wlock_check_timeout l l' cpu timeout start_time now stopped hchk

/-- C11 on a concrete call: caller 5 asks for a lock with one reader, timeout 10,
started at time 0; the check at time 5 waits, the check at time 11 times out, and the
table is as before. -/
theorem wlock_timeout_net_zero_witness :
    (sys_rwlock_wlock (table_with 1 0 0) 5 1 10 0 [(5, false), (11, false)]).1
      = .done CELL_ETIMEDOUT ∧
    (sys_rwlock_wlock (table_with 1 0 0) 5 1 10 0 [(5, false), (11, false)]).2
      = table_with 1 0 0 :=
  ⟨by decide,
   (wlock_timeout_net_zero (table_with 1 0 0) 5 1 10 0 [(5, false), (11, false)]
      (slot_with 1 0 0) rfl (by decide)).1⟩

theorem wlock_stop_keeps_increment (m : IdManager) (cpu id timeout start_time now : Nat)
    (pre post : List (Nat × Bool)) (e : ID) (h : m.GetIDData id = some e)
    (hw : e.data.writer ≠ cpu) (hq : 0 ≤ e.data.waiters)
    (hc : e.data.readers ≠ 0 ∨ e.data.writer ≠ 0)
    (hpre : ∀ o ∈ pre, o.2 = false ∧ timed_out timeout start_time o.1 = false)
    (ht : timed_out timeout start_time now = false) :
    sys_rwlock_wlock m cpu id timeout start_time (pre ++ (now, true) :: post) =
      (.done CELL_OK,
        m.put id { e with data := { e.data with waiters := e.data.waiters + 1 } }) := by
  rw [wlock_entered m cpu id timeout start_time _ e h hw hq,
    wlock_loop_skip cpu timeout start_time pre _
      { e.data with waiters := e.data.waiters + 1 } hc hpre]
  simp only [wlock_loop, wlock_check, hc, ht, if_true, if_false, Bool.false_eq_true, finish,
    Exit.status]

/-- C12, the code at a failing input: caller 5 asks for a lock with one reader and no
waiter, without timeout, and finds the stop flag set at its first check.  The call
returns `CELL_OK` and `writer` stays none, but `waiters` is left at 1: the stop branch
(lines 180-184) returns without the `waiters--` that the timeout branch (line 176) and
the acquisition (line 190) perform. -/
theorem wlock_stop_abort_keeps_waiter :
    sys_rwlock_wlock (table_with 1 0 0) 5 1 0 0 [(3, true)]
      = (.done CELL_OK, table_with 1 0 1) ∧
    ((table_with 1 0 0).GetIDData 1).map (fun e => e.data.waiters) = some 0 ∧
    ((sys_rwlock_wlock (table_with 1 0 0) 5 1 0 0 [(3, true)]).2.GetIDData 1).map
      (fun e => e.data.waiters) = some 1 := by
  refine ⟨?_, rfl, ?_⟩
  · exact wlock_stop_keeps_increment (table_with 1 0 0) 5 1 0 0 3 [] [] (slot_with 1 0 0) rfl
      (by decide) (by decide) (Or.inl (by decide)) (fun _ ho => nomatch ho) rfl
  · decide

/-- C13: an `rlock` call with a nonzero timeout on a lock that has a writer or waiters.
At a check with the stop flag clear the call times out if the elapsed guest time
exceeds the timeout and waits otherwise, leaving the lock untouched either way.  For
the whole call, while the lock stays as it is and the stop flag stays clear: it never
returns `CELL_OK` and the lock it leaves is the lock it found; it waits through every
check whose elapsed time does not exceed the timeout and returns `CELL_ETIMEDOUT` at
the first one whose elapsed time does, with the whole table unchanged. -/
theorem rlock_times_out (m : IdManager) (id timeout start_time : Nat) (e : ID)
    (h : m.GetIDData id = some e) (hc : e.data.writer ≠ 0 ∨ e.data.waiters ≠ 0)
    (ht : timeout ≠ 0) :
    (∀ (l : rwlock_t) (now : Nat), (l.writer ≠ 0 ∨ l.waiters ≠ 0) →
      rlock_check l timeout start_time now false =
        if timeout < u64_sub now start_time then .ret .timeout l else .wait l) ∧
    (∀ obs : List (Nat × Bool), (∀ o ∈ obs, o.2 = false) →
      (sys_rwlock_rlock m id timeout start_time obs).1 ≠ .done CELL_OK ∧
      ∃ e', (sys_rwlock_rlock m id timeout start_time obs).2.GetIDData id = some e' ∧
        e'.data = e.data) ∧
    (∀ (pre post : List (Nat × Bool)) (now : Nat),
      (∀ o ∈ pre, o.2 = false ∧ ¬ timeout < u64_sub o.1 start_time) →
      timeout < u64_sub now start_time →
        sys_rwlock_rlock m id timeout start_time (pre ++ (now, false) :: post) =
          (.done CELL_ETIMEDOUT, m)) := by
  refine ⟨?_, ?_, ?_⟩
  · intro l now hl
    by_cases hlt : timeout < u64_sub now start_time
    · have hto : timed_out timeout start_time now = true := (timed_out_iff _ _ _).2 ⟨ht, hlt⟩
      simp only [rlock_check, hl, hto, hlt, if_true]
    · have hto : ¬ timed_out timeout start_time now = true :=
        fun hx => hlt ((timed_out_iff _ _ _).1 hx).2
      simp only [rlock_check, hl, hto, hlt, if_true, if_false, Bool.false_eq_true]
  · intro obs hobs
    obtain ⟨h1, h2⟩ := rlock_loop_held timeout start_time obs e.data hc
    have h3 := h2 hobs
    have h4 := rlock_loop_no_assert timeout start_time obs e.data
    obtain ⟨h5, e', h6, h7⟩ := finish_ok m id e _ h h4
    simp only [sys_rwlock_rlock, h]
    exact ⟨h5 ▸ h3, e', h6, h7.trans h1⟩
  · intro pre post now hpre hlt
    have hpre' : ∀ o ∈ pre, o.2 = false ∧ timed_out timeout start_time o.1 = false := by
      intro o ho
      refine ⟨(hpre o ho).1, ?_⟩
      cases hx : timed_out timeout start_time o.1 with
      | false => rfl
      | true => exact absurd ((timed_out_iff _ _ _).1 hx).2 (hpre o ho).2
    have hto : timed_out timeout start_time now = true := (timed_out_iff _ _ _).2 ⟨ht, hlt⟩
    simp only [sys_rwlock_rlock, h]
    rw [rlock_loop_skip timeout start_time pre _ _ hc hpre']
    simp only [rlock_loop, rlock_check, hc, hto, if_true, finish, Exit.status]
    rw [IdManager.put_same m id e h]

/-- C13 on the example: timeout 100, started at time 0, writer 7 holding throughout;
the checks at times 50 and 100 wait, the check at time 101 returns `CELL_ETIMEDOUT`
and the table is unchanged. -/
theorem rlock_times_out_witness :
    sys_rwlock_rlock (table_with 0 7 0) 1 100 0 [(50, false), (100, false), (101, false)]
      = (.done CELL_ETIMEDOUT, table_with 0 7 0) :=
  (rlock_times_out (table_with 0 7 0) 1 100 0 (slot_with 0 7 0) rfl (Or.inl (by decide))
    (by decide)).2.2 [(50, false), (100, false)] [] 101 (by decide) (by decide)

/-- C14: an `rlock` call that finds the stop flag set at a check where the lock still
has a writer or waiters and the timeout has not elapsed returns through the stop
branch with the lock untouched; the whole call, after any number of checks that only
wait, returns `CELL_OK` and leaves the whole table as it found it. -/
theorem rlock_stop_abort (m : IdManager) (id timeout start_time : Nat) (e : ID)
    (h : m.GetIDData id = some e) (hc : e.data.writer ≠ 0 ∨ e.data.waiters ≠ 0) :
    (∀ (l : rwlock_t) (now : Nat), (l.writer ≠ 0 ∨ l.waiters ≠ 0) →
      timed_out timeout start_time now = false →
        rlock_check l timeout start_time now true = .ret .stop l) ∧
    (∀ (pre post : List (Nat × Bool)) (now : Nat),
      (∀ o ∈ pre, o.2 = false ∧ timed_out timeout start_time o.1 = false) →
      timed_out timeout start_time now = false →
        sys_rwlock_rlock m id timeout start_time (pre ++ (now, true) :: post) =
          (.done CELL_OK, m)) := by
  refine ⟨?_, ?_⟩
  · intro l now hl hto
    simp only [rlock_check, hl, hto, if_true, if_false, Bool.false_eq_true]
  · intro pre post now hpre hto
    simp only [sys_rwlock_rlock, h]
    rw [rlock_loop_skip timeout start_time pre _ _ hc hpre]
    simp only [rlock_loop, rlock_check, hc, hto, if_true, if_false, Bool.false_eq_true,
      finish, Exit.status]
    rw [IdManager.put_same m id e h]

/-- C14 on a concrete call: writer 7 holds, timeout 100; the check at time 50 waits,
the check at time 60 finds the stop flag set; `CELL_OK` and an unchanged table. -/
theorem rlock_stop_abort_witness :
    sys_rwlock_rlock (table_with 0 7 0) 1 100 0 [(50, false), (60, true)]
      = (.done CELL_OK, table_with 0 7 0) :=
  (rlock_stop_abort (table_with 0 7 0) 1 100 0 (slot_with 0 7 0) rfl (Or.inl (by decide))).2
    [(50, false)] [] 60 (by decide) (by decide)

/-- C15: with `timeout == 0` neither `rlock` nor `wlock` ever returns
`CELL_ETIMEDOUT`, for every table, handle, caller, start time and list of readings.
A check of either loop leaves through the timeout branch only if the call is still
blocked at that check, the timeout is nonzero and `now - start_time`, computed modulo
2^64, is strictly greater than the timeout; an elapsed time equal to the timeout does
not time out.  The last part states what the 64-bit subtraction computes. -/
theorem timeout_zero_waits_forever :
    (∀ (m : IdManager) (id start_time : Nat) (obs : List (Nat × Bool)),
      (sys_rwlock_rlock m id 0 start_time obs).1 ≠ .done CELL_ETIMEDOUT) ∧
    (∀ (m : IdManager) (cpu id start_time : Nat) (obs : List (Nat × Bool)),
      (sys_rwlock_wlock m cpu id 0 start_time obs).1 ≠ .done CELL_ETIMEDOUT) ∧
    (∀ (l l' : rwlock_t) (timeout start_time now : Nat) (stopped : Bool),
      rlock_check l timeout start_time now stopped = .ret .timeout l' →
        (l.writer ≠ 0 ∨ l.waiters ≠ 0) ∧ timeout ≠ 0 ∧
          timeout < u64_sub now start_time) ∧
    (∀ (l l' : rwlock_t) (cpu timeout start_time now : Nat) (stopped : Bool),
      wlock_check l cpu timeout start_time now stopped = .ret .timeout l' →
        (l.readers ≠ 0 ∨ l.writer ≠ 0) ∧ timeout ≠ 0 ∧
          timeout < u64_sub now start_time) ∧
    (∀ (l l' : rwlock_t) (cpu timeout start_time now : Nat) (stopped : Bool),
      u64_sub now start_time = timeout →
        rlock_check l timeout start_time now stopped ≠ .ret .timeout l' ∧
        wlock_check l cpu timeout start_time now stopped ≠ .ret .timeout l') ∧
    (∀ a b : Nat, a < 2 ^ 64 → b < 2 ^ 64 →
      u64_sub a b = if b ≤ a then a - b else a + 2 ^ 64 - b) := by
  refine ⟨?_, ?_, ?_, ?_, ?_, ?_⟩
  · intro m id start_time obs hret
    cases hg : m.GetIDData id with
    | none => simp [sys_rwlock_rlock, hg] at hret
    | some e =>
      simp only [sys_rwlock_rlock, hg] at hret
      rw [finish_fst] at hret
      exact rlock_loop_timeout 0 start_time obs e.data hret rfl
  · intro m cpu id start_time obs hret
    cases hg : m.GetIDData id with
    | none => simp [sys_rwlock_wlock, hg] at hret
    | some e =>
      by_cases hw : e.data.writer = cpu
      · simp [sys_rwlock_wlock, hg, wlock_enter, hw] at hret
      · by_cases hgt : e.data.waiters + 1 > 0
        · simp only [sys_rwlock_wlock, hg, wlock_enter, hw, hgt, if_true, if_false] at hret
          rw [finish_fst] at hret
          exact (wlock_loop_timeout cpu 0 start_time obs _ hret).2 rfl
        · simp [sys_rwlock_wlock, hg, wlock_enter, hw, hgt] at hret
  · intro l l' timeout start_time now stopped hchk
    obtain ⟨h1, h2, _⟩ := rlock_check_timeout l l' timeout start_time now stopped hchk
    exact ⟨h1, (timed_out_iff _ _ _).1 h2⟩
  · intro l l' cpu timeout start_time now stopped hchk
    obtain ⟨h1, h2⟩ := wlock_check_timeout_only l l' cpu timeout start_time now stopped hchk
    exact ⟨h1, (timed_out_iff _ _ _).1 h2⟩
  · intro l l' cpu timeout start_time now stopped heq
    constructor
    · intro hchk
      have h2 := (rlock_check_timeout l l' timeout start_time now stopped hchk).2.1
      have h3 := ((timed_out_iff _ _ _).1 h2).2
      omega
    · intro hchk
      have h2 := (wlock_check_timeout_only l l' cpu timeout start_time now stopped hchk).2
      have h3 := ((timed_out_iff _ _ _).1 h2).2
      omega
  · intro a b ha hb
    have ha' : a < 18446744073709551616 := by norm_num at ha; exact ha
    have hb' : b < 18446744073709551616 := by norm_num at hb; exact hb
    unfold u64_sub
    rw [Nat.mod_eq_of_lt ha', Nat.mod_eq_of_lt hb']
    norm_num
    split <;> omega

/-! ## End-to-end scenarios -/

theorem create_ok (K : sys_sync) (m : IdManager) (rw_lock_id attr : Nat)
    (a : sys_rwlock_attribute_t) (hs : rw_lock_id ≠ 0) (ha : attr ≠ 0)
    (hp : a.protocol = K.SYS_SYNC_FIFO ∨ a.protocol = K.SYS_SYNC_PRIORITY
      ∨ a.protocol = K.SYS_SYNC_PRIORITY_INHERIT)
    (h1 : a.pshared = 0x200) (h2 : a.ipc_key = 0) (h3 : a.flags = 0) :
    sys_rwlock_create K m rw_lock_id attr a =
      (CELL_OK,
        { m_cur_id := m.m_cur_id + 1,
          m_id_map := (m.m_cur_id,
            { data := { protocol := a.protocol, name := a.name_u64, readers := 0,
                        writer := 0, waiters := 0 },
              use_count := 1 }) :: m.m_id_map },
        some (rw_lock_id, m.m_cur_id)) := by
  have hn : ¬ (rw_lock_id = 0 ∨ attr = 0) := by
    push_neg
    exact ⟨hs, ha⟩
  have hq : ¬ (a.pshared ≠ 0x200 ∨ a.ipc_key ≠ 0 ∨ a.flags ≠ 0) := by
    push_neg
    exact ⟨h1, h2, h3⟩
  simp only [sys_rwlock_create, hn, hp, hq, if_false, not_true_eq_false, IdManager.GetNewID,
    rwlock_t.new]

/-- C16: for caller identities `A` and `B` with `A` nonzero and `A != B` (`B` need not
be nonzero), on a lock freshly created with the FIFO protocol: `trywlock` by `A`
returns `CELL_OK` and `writer` becomes `A`; `trywlock` by `B` then returns
`CELL_EBUSY`; `wunlock` by `B` returns `CELL_EPERM`, both leaving the table with
writer `A` untouched; `wunlock` by `A` returns `CELL_OK` and `writer` becomes none. -/
theorem writer_scenario (K : sys_sync) (m : IdManager) (rw_lock_id attr A B : Nat)
    (a : sys_rwlock_attribute_t) (hs : rw_lock_id ≠ 0) (ha : attr ≠ 0)
    (hp : a.protocol = K.SYS_SYNC_FIFO) (h1 : a.pshared = 0x200) (h2 : a.ipc_key = 0)
    (h3 : a.flags = 0) (hA : A ≠ 0) (hAB : A ≠ B) :
    ∃ m1 m2 m3 : IdManager,
      sys_rwlock_create K m rw_lock_id attr a =
        (CELL_OK, m1, some (rw_lock_id, m.m_cur_id)) ∧
      sys_rwlock_trywlock m1 A m.m_cur_id = (CELL_OK, m2) ∧
      m2.GetIDData m.m_cur_id =
        some { data := { protocol := a.protocol, name := a.name_u64, readers := 0,
                         writer := A, waiters := 0 },
               use_count := 1 } ∧
      sys_rwlock_trywlock m2 B m.m_cur_id = (CELL_EBUSY, m2) ∧
      sys_rwlock_wunlock m2 B m.m_cur_id = (CELL_EPERM, m2) ∧
      sys_rwlock_wunlock m2 A m.m_cur_id = (CELL_OK, m3) ∧
      m3.GetIDData m.m_cur_id =
        some { data := { protocol := a.protocol, name := a.name_u64, readers := 0,
                         writer := 0, waiters := 0 },
               use_count := 1 } := by
  have hA' : ¬ (0 = A) := fun hx => hA hx.symm
  refine ⟨{ m_cur_id := m.m_cur_id + 1,
            m_id_map := (m.m_cur_id,
              { data := { protocol := a.protocol, name := a.name_u64, readers := 0,
                          writer := 0, waiters := 0 },
                use_count := 1 }) :: m.m_id_map },
          { m_cur_id := m.m_cur_id + 1,
            m_id_map := (m.m_cur_id,
              { data := { protocol := a.protocol, name := a.name_u64, readers := 0,
                          writer := A, waiters := 0 },
                use_count := 1 }) :: m.m_id_map },
          { m_cur_id := m.m_cur_id + 1,
            m_id_map := (m.m_cur_id,
              { data := { protocol := a.protocol, name := a.name_u64, readers := 0,
                          writer := 0, waiters := 0 },
                use_count := 1 }) :: m.m_id_map },
          create_ok K m rw_lock_id attr a hs ha (Or.inl hp) h1 h2 h3, ?_, ?_, ?_, ?_, ?_, ?_⟩
  · simp [sys_rwlock_trywlock, IdManager.GetIDData, IdManager.find, IdManager.put,
      IdManager.setSlot, hA']
  · simp [IdManager.GetIDData, IdManager.find]
  · simp [sys_rwlock_trywlock, IdManager.GetIDData, IdManager.find, hAB, hA]
  · simp [sys_rwlock_wunlock, IdManager.GetIDData, IdManager.find, hAB]
  · simp [sys_rwlock_wunlock, IdManager.GetIDData, IdManager.find, IdManager.put,
      IdManager.setSlot]
  · simp [IdManager.GetIDData, IdManager.find]

/-- C16 at concrete values: callers 5 and 6 on the first lock of an empty table. -/
theorem writer_scenario_witness :
    ∃ m1 m2 m3 : IdManager,
      sys_rwlock_create sync_sample table_empty 64 128 attr_sample =
        (CELL_OK, m1, some (64, 1)) ∧
      sys_rwlock_trywlock m1 5 1 = (CELL_OK, m2) ∧
      m2.GetIDData 1 =
        some { data := { protocol := 1, name := 7, readers := 0, writer := 5, waiters := 0 },
               use_count := 1 } ∧
      sys_rwlock_trywlock m2 6 1 = (CELL_EBUSY, m2) ∧
      sys_rwlock_wunlock m2 6 1 = (CELL_EPERM, m2) ∧
      sys_rwlock_wunlock m2 5 1 = (CELL_OK, m3) ∧
      m3.GetIDData 1 =
        some { data := { protocol := 1, name := 7, readers := 0, writer := 0, waiters := 0 },
               use_count := 1 } :=
  writer_scenario sync_sample table_empty 64 128 5 6 attr_sample (by decide) (by decide) rfl
    rfl rfl rfl (by decide) (by decide)

/-- C17 fails for the caller identity 0: on a fresh lock with two read holds,
`trywlock` by identity 0 returns `CELL_EDEADLK`, not `CELL_EBUSY` (the lock has no
writer, and 0 is also the "none" value of `writer`); and after both holds are released
`trywlock` by identity 0 again returns `CELL_EDEADLK`, not `CELL_OK`. -/
theorem reader_scenario_identity_zero :
    (sys_rwlock_trywlock
      (sys_rwlock_tryrlock
        (sys_rwlock_tryrlock
          (sys_rwlock_create sync_sample table_empty 64 128 attr_sample).2.1 1).2 1).2
      0 1).1 ≠ CELL_EBUSY ∧
    (sys_rwlock_trywlock
      (sys_rwlock_tryrlock
        (sys_rwlock_tryrlock
          (sys_rwlock_create sync_sample table_empty 64 128 attr_sample).2.1 1).2 1).2
      0 1).1 = CELL_EDEADLK ∧
    (sys_rwlock_trywlock
      (sys_rwlock_runlock
        (sys_rwlock_runlock
          (sys_rwlock_tryrlock
            (sys_rwlock_tryrlock
              (sys_rwlock_create sync_sample table_empty 64 128 attr_sample).2.1 1).2 1).2
          1).2 1).2
      0 1).1 ≠ CELL_OK := by
  refine ⟨?_, ?_, ?_⟩ <;> decide

/-- C17, amended to nonzero callers: on a freshly created lock two `tryrlock` calls
return `CELL_OK` and leave `readers = 2`; `trywlock` by any nonzero identity `C` then
returns `CELL_EBUSY` and leaves the table unchanged; two `runlock` calls return
`CELL_OK` and leave `readers = 0`; `trywlock` by any nonzero identity `D` then returns
`CELL_OK` and `D` is the writer. -/
theorem reader_scenario (K : sys_sync) (m : IdManager) (rw_lock_id attr C D : Nat)
    (a : sys_rwlock_attribute_t) (hs : rw_lock_id ≠ 0) (ha : attr ≠ 0)
    (hp : a.protocol = K.SYS_SYNC_FIFO ∨ a.protocol = K.SYS_SYNC_PRIORITY
      ∨ a.protocol = K.SYS_SYNC_PRIORITY_INHERIT)
    (h1 : a.pshared = 0x200) (h2 : a.ipc_key = 0) (h3 : a.flags = 0)
    (hC : C ≠ 0) (hD : D ≠ 0) :
    sys_rwlock_create K m rw_lock_id attr a =
      (CELL_OK, table_created m a 0 0, some (rw_lock_id, m.m_cur_id)) ∧
    sys_rwlock_tryrlock (table_created m a 0 0) m.m_cur_id =
      (CELL_OK, table_created m a 1 0) ∧
    sys_rwlock_tryrlock (table_created m a 1 0) m.m_cur_id =
      (CELL_OK, table_created m a 2 0) ∧
    sys_rwlock_trywlock (table_created m a 2 0) C m.m_cur_id =
      (CELL_EBUSY, table_created m a 2 0) ∧
    sys_rwlock_runlock (table_created m a 2 0) m.m_cur_id =
      (CELL_OK, table_created m a 1 0) ∧
    sys_rwlock_runlock (table_created m a 1 0) m.m_cur_id =
      (CELL_OK, table_created m a 0 0) ∧
    sys_rwlock_trywlock (table_created m a 0 0) D m.m_cur_id =
      (CELL_OK, table_created m a 0 D) ∧
    (∀ (readers : Int) (writer : Nat),
      (table_created m a readers writer).GetIDData m.m_cur_id =
        some { data := { protocol := a.protocol, name := a.name_u64, readers := readers,
                         writer := writer, waiters := 0 },
               use_count := 1 }) := by
  have hC' : ¬ (0 = C) := fun hx => hC hx.symm
  have hD' : ¬ (0 = D) := fun hx => hD hx.symm
  refine ⟨create_ok K m rw_lock_id attr a hs ha hp h1 h2 h3, ?_, ?_, ?_, ?_, ?_, ?_, ?_⟩
  · simp [sys_rwlock_tryrlock, table_created, IdManager.GetIDData, IdManager.find,
      IdManager.put, IdManager.setSlot]
  · simp [sys_rwlock_tryrlock, table_created, IdManager.GetIDData, IdManager.find,
      IdManager.put, IdManager.setSlot]
  · simp [sys_rwlock_trywlock, table_created, IdManager.GetIDData, IdManager.find, hC']
  · simp [sys_rwlock_runlock, table_created, IdManager.GetIDData, IdManager.find,
      IdManager.put, IdManager.setSlot]
  · simp [sys_rwlock_runlock, table_created, IdManager.GetIDData, IdManager.find,
      IdManager.put, IdManager.setSlot]
  · simp [sys_rwlock_trywlock, table_created, IdManager.GetIDData, IdManager.find,
      IdManager.put, IdManager.setSlot, hD']
  · intro readers writer
    simp [table_created, IdManager.GetIDData, IdManager.find]

/-- C17 amended, at concrete values: the refused caller is 9, the final writer is 5. -/
theorem reader_scenario_witness :
    sys_rwlock_trywlock (table_created table_empty attr_sample 2 0) 9 1 =
      (CELL_EBUSY, table_created table_empty attr_sample 2 0) ∧
    sys_rwlock_trywlock (table_created table_empty attr_sample 0 0) 5 1 =
      (CELL_OK, table_created table_empty attr_sample 0 5) :=
  ⟨(reader_scenario sync_sample table_empty 64 128 9 5 attr_sample (by decide) (by decide)
      (Or.inl rfl) rfl rfl rfl (by decide) (by decide)).2.2.2.1,
   (reader_scenario sync_sample table_empty 64 128 9 5 attr_sample (by decide) (by decide)
      (Or.inl rfl) rfl rfl rfl (by decide) (by decide)).2.2.2.2.2.2.1⟩

/-! ## The identity 0 -/

/-- C20: `writer == 0` means "no writer", so a caller with identity 0 passes for the
owner of every lock without a writer: on such a lock `trywlock` and `wlock` by identity
0 return `CELL_EDEADLK` and `wunlock` by identity 0 returns `CELL_OK`, each leaving
the table unchanged.  For every nonzero identity (indeed for every identity), `trywlock`
and `wlock` return `CELL_EDEADLK` exactly when `writer` is that identity. -/
theorem identity_zero_is_none (m : IdManager) (id : Nat) (e : ID)
    (h : m.GetIDData id = some e) :
    (e.data.writer = 0 →
      sys_rwlock_trywlock m 0 id = (CELL_EDEADLK, m) ∧
      (∀ (timeout start_time : Nat) (obs : List (Nat × Bool)),
        sys_rwlock_wlock m 0 id timeout start_time obs = (.done CELL_EDEADLK, m)) ∧
      sys_rwlock_wunlock m 0 id = (CELL_OK, m)) ∧
    (∀ cpu : Nat, cpu ≠ 0 →
      ((sys_rwlock_trywlock m cpu id).1 = CELL_EDEADLK ↔ e.data.writer = cpu) ∧
      (∀ (timeout start_time : Nat) (obs : List (Nat × Bool)),
        (sys_rwlock_wlock m cpu id timeout start_time obs).1 = .done CELL_EDEADLK ↔
          e.data.writer = cpu)) := by
  constructor
  · intro hw
    refine ⟨?_, ?_, ?_⟩
    · simp only [sys_rwlock_trywlock, h, hw, if_true]
    · intro timeout start_time obs
      simp only [sys_rwlock_wlock, h, wlock_enter, hw, if_true]
    · have hsame : ({ e with data := { e.data with writer := 0 } } : ID) = e := by
        cases e with
        | mk d u =>
          cases d with
          | mk p n r w q =>
            simp only at hw
            subst hw
            rfl
      simp only [sys_rwlock_wunlock, h, hw, ne_eq, not_true_eq_false, if_false, hsame]
      rw [IdManager.put_same m id e h]
  · intro cpu _
    constructor
    · by_cases hw : e.data.writer = cpu
      · simp [sys_rwlock_trywlock, h, hw]
      · by_cases hb : e.data.readers ≠ 0 ∨ e.data.writer ≠ 0 ∨ e.data.waiters ≠ 0
        · simp only [sys_rwlock_trywlock, h, hw, hb, if_true, if_false]
          simp
        · simp only [sys_rwlock_trywlock, h, hw, hb, if_false]
          simp
    · intro timeout start_time obs
      by_cases hw : e.data.writer = cpu
      · simp [sys_rwlock_wlock, h, wlock_enter, hw]
      · by_cases hgt : e.data.waiters + 1 > 0
        · simp only [sys_rwlock_wlock, h, wlock_enter, hw, hgt, if_true, if_false]
          rw [finish_fst]
          simp only [hw, iff_false]
          exact wlock_loop_no_deadlk cpu timeout start_time obs _
        · simp [sys_rwlock_wlock, h, wlock_enter, hw, hgt]

/-- C20 at a concrete state: on a free lock, identity 0 is told it would deadlock. -/
theorem identity_zero_is_none_witness :
    sys_rwlock_trywlock (table_with 0 0 0) 0 1 = (CELL_EDEADLK, table_with 0 0 0) ∧
    sys_rwlock_wunlock (table_with 0 0 0) 0 1 = (CELL_OK, table_with 0 0 0) :=
  ⟨((identity_zero_is_none (table_with 0 0 0) 1 (slot_with 0 0 0) rfl).1 rfl).1,
   ((identity_zero_is_none (table_with 0 0 0) 1 (slot_with 0 0 0) rfl).1 rfl).2.2⟩

/-! ## Steps of interleaved calls -/

theorem rlock_check_ret (l l' : rwlock_t) (x : Exit) (timeout start_time now : Nat)
    (stopped : Bool) (h : rlock_check l timeout start_time now stopped = .ret x l') :
    l'.waiters = l.waiters ∧ l'.writer = l.writer := by
  by_cases hc : l.writer ≠ 0 ∨ l.waiters ≠ 0 <;>
    by_cases ht : timed_out timeout start_time now = true <;>
    by_cases hs : stopped = true <;>
    simp [rlock_check, hc, ht, hs] at h
  all_goals
    obtain ⟨_, h2⟩ := h
    subst h2
    exact ⟨rfl, rfl⟩

theorem rlock_check_wait (l l' : rwlock_t) (timeout start_time now : Nat)
    (stopped : Bool) (h : rlock_check l timeout start_time now stopped = .wait l') :
    l' = l := by
  by_cases hc : l.writer ≠ 0 ∨ l.waiters ≠ 0 <;>
    by_cases ht : timed_out timeout start_time now = true <;>
    by_cases hs : stopped = true <;>
    simp [rlock_check, hc, ht, hs] at h
  all_goals exact h.symm

theorem rlock_check_no_assert (l : rwlock_t) (timeout start_time now : Nat)
    (stopped : Bool) : rlock_check l timeout start_time now stopped ≠ .assert_fail := by
  by_cases hc : l.writer ≠ 0 ∨ l.waiters ≠ 0 <;>
    by_cases ht : timed_out timeout start_time now = true <;>
    by_cases hs : stopped = true <;>
    simp [rlock_check, hc, ht, hs]

theorem wlock_check_ret (l l' : rwlock_t) (x : Exit) (cpu timeout start_time now : Nat)
    (stopped : Bool) (h : wlock_check l cpu timeout start_time now stopped = .ret x l') :
    l.waiters - 1 ≤ l'.waiters ∧ l'.readers = l.readers ∧
    (l'.writer = l.writer ∨
      (l.writer = 0 ∧ l.readers = 0 ∧ l'.writer = cpu ∧ x = .acquired)) := by
  by_cases hge : l.waiters - 1 ≥ 0 <;>
    by_cases hc : l.readers ≠ 0 ∨ l.writer ≠ 0 <;>
    by_cases ht : timed_out timeout start_time now = true <;>
    by_cases hs : stopped = true <;>
    simp [wlock_check, wlock_acquire, hc, ht, hs, hge] at h
  all_goals
    obtain ⟨h1, h2⟩ := h
    subst h2
    subst h1
    push_neg at hc
    first
      | exact ⟨le_refl _, rfl, Or.inl rfl⟩
      | exact ⟨by show l.waiters - 1 ≤ l.waiters; omega, rfl, Or.inl rfl⟩
      | exact ⟨le_refl _, rfl, Or.inr ⟨hc.2, hc.1, rfl, rfl⟩⟩

theorem wlock_check_no_assert (l : rwlock_t) (cpu timeout start_time now : Nat)
    (stopped : Bool) (hq : 1 ≤ l.waiters) :
    wlock_check l cpu timeout start_time now stopped ≠ .assert_fail := by
  have hge : l.waiters - 1 ≥ 0 := by omega
  by_cases hc : l.readers ≠ 0 ∨ l.writer ≠ 0 <;>
    by_cases ht : timed_out timeout start_time now = true <;>
    by_cases hs : stopped = true <;>
    simp [wlock_check, wlock_acquire, hc, ht, hs, hge]

theorem tryrlock_effect (m : IdManager) (id : Nat) :
    (m.GetIDData id = none ∧ sys_rwlock_tryrlock m id = (CELL_ESRCH, m)) ∨
    ∃ e e', m.GetIDData id = some e ∧ (sys_rwlock_tryrlock m id).2.GetIDData id = some e' ∧
      e'.data.waiters = e.data.waiters ∧ e'.data.writer = e.data.writer := by
  cases h : m.GetIDData id with
  | none => exact Or.inl ⟨rfl, by simp only [sys_rwlock_tryrlock, h]⟩
  | some e =>
    refine Or.inr ⟨e, ?_⟩
    by_cases hc : e.data.writer ≠ 0 ∨ e.data.waiters ≠ 0
    · have hres : sys_rwlock_tryrlock m id = (CELL_EBUSY, m) := by
        simp only [sys_rwlock_tryrlock, h, hc, if_true]
      rw [hres]
      exact ⟨e, rfl, h, rfl, rfl⟩
    · have hres : sys_rwlock_tryrlock m id = (CELL_OK, m.put id
          { e with data := { e.data with readers := e.data.readers + 1 } }) := by
        simp only [sys_rwlock_tryrlock, h, hc, if_false]
      rw [hres]
      exact ⟨_, rfl, IdManager.GetIDData_put_self m id _ e h, rfl, rfl⟩

theorem runlock_effect (m : IdManager) (id : Nat) :
    (m.GetIDData id = none ∧ sys_rwlock_runlock m id = (CELL_ESRCH, m)) ∨
    ∃ e e', m.GetIDData id = some e ∧ (sys_rwlock_runlock m id).2.GetIDData id = some e' ∧
      e'.data.waiters = e.data.waiters ∧ e'.data.writer = e.data.writer := by
  cases h : m.GetIDData id with
  | none => exact Or.inl ⟨rfl, by simp only [sys_rwlock_runlock, h]⟩
  | some e =>
    refine Or.inr ⟨e, ?_⟩
    by_cases hc : e.data.readers = 0
    · have hres : sys_rwlock_runlock m id = (CELL_EPERM, m) := by
        simp only [sys_rwlock_runlock, h, hc, if_true]
      rw [hres]
      exact ⟨e, rfl, h, rfl, rfl⟩
    · have hres : sys_rwlock_runlock m id = (CELL_OK, m.put id
          { e with data := { e.data with readers := e.data.readers - 1 } }) := by
        simp only [sys_rwlock_runlock, h, hc, if_false]
      rw [hres]
      exact ⟨_, rfl, IdManager.GetIDData_put_self m id _ e h, rfl, rfl⟩

theorem trywlock_effect (m : IdManager) (cpu id : Nat) :
    (m.GetIDData id = none ∧ sys_rwlock_trywlock m cpu id = (CELL_ESRCH, m)) ∨
    ∃ e e', m.GetIDData id = some e ∧
      (sys_rwlock_trywlock m cpu id).2.GetIDData id = some e' ∧
      e'.data.waiters = e.data.waiters ∧
      (e'.data.writer = e.data.writer ∨
        (e.data.writer = 0 ∧ e.data.readers = 0 ∧ e'.data.writer = cpu ∧
          (sys_rwlock_trywlock m cpu id).1 = CELL_OK)) := by
  cases h : m.GetIDData id with
  | none => exact Or.inl ⟨rfl, by simp only [sys_rwlock_trywlock, h]⟩
  | some e =>
    refine Or.inr ⟨e, ?_⟩
    by_cases hw : e.data.writer = cpu
    · have hres : sys_rwlock_trywlock m cpu id = (CELL_EDEADLK, m) := by
        simp only [sys_rwlock_trywlock, h, hw, if_true]
      rw [hres]
      exact ⟨e, rfl, h, rfl, Or.inl rfl⟩
    · by_cases hc : e.data.readers ≠ 0 ∨ e.data.writer ≠ 0 ∨ e.data.waiters ≠ 0
      · have hres : sys_rwlock_trywlock m cpu id = (CELL_EBUSY, m) := by
          simp only [sys_rwlock_trywlock, h, hw, hc, if_true, if_false]
        rw [hres]
        exact ⟨e, rfl, h, rfl, Or.inl rfl⟩
      · have hres : sys_rwlock_trywlock m cpu id = (CELL_OK, m.put id
            { e with data := { e.data with writer := cpu } }) := by
          simp only [sys_rwlock_trywlock, h, hw, hc, if_false]
        rw [hres]
        push_neg at hc
        exact ⟨_, rfl, IdManager.GetIDData_put_self m id _ e h, rfl,
          Or.inr ⟨hc.2.1, hc.1, rfl, rfl⟩⟩

theorem wunlock_effect (m : IdManager) (cpu id : Nat) :
    (m.GetIDData id = none ∧ sys_rwlock_wunlock m cpu id = (CELL_ESRCH, m)) ∨
    ∃ e e', m.GetIDData id = some e ∧
      (sys_rwlock_wunlock m cpu id).2.GetIDData id = some e' ∧
      e'.data.waiters = e.data.waiters ∧
      (e'.data.writer = e.data.writer ∨
        (e'.data.writer = 0 ∧ e.data.writer = cpu ∧
          (sys_rwlock_wunlock m cpu id).1 = CELL_OK)) := by
  cases h : m.GetIDData id with
  | none => exact Or.inl ⟨rfl, by simp only [sys_rwlock_wunlock, h]⟩
  | some e =>
    refine Or.inr ⟨e, ?_⟩
    by_cases hw : e.data.writer = cpu
    · have hput := IdManager.GetIDData_put_self m id
        { e with data := { e.data with writer := 0 } } e h
      have hres : sys_rwlock_wunlock m cpu id =
          (CELL_OK, m.put id { e with data := { e.data with writer := 0 } }) := by
        simp only [sys_rwlock_wunlock, h, hw, ne_eq, not_true_eq_false, if_false]
      rw [hres]
      exact ⟨_, rfl, hput, rfl, Or.inr ⟨rfl, hw, rfl⟩⟩
    · have hres : sys_rwlock_wunlock m cpu id = (CELL_EPERM, m) := by
        simp only [sys_rwlock_wunlock, h, hw, ne_eq, not_false_eq_true, if_true]
      rw [hres]
      exact ⟨e, rfl, h, rfl, Or.inl rfl⟩

theorem destroy_effect (m : IdManager) (id : Nat) :
    (sys_rwlock_destroy m id).2 = m ∨
    ∃ e, m.GetIDData id = some e ∧ e.data.waiters = 0 ∧ e.data.writer = 0 ∧
      (sys_rwlock_destroy m id).2.GetIDData id = none := by
  cases h : m.GetIDData id with
  | none => exact Or.inl (by simp only [sys_rwlock_destroy, h])
  | some e =>
    by_cases hc : e.use_count + 1 > 2 ∨ e.data.readers ≠ 0 ∨ e.data.writer ≠ 0
        ∨ e.data.waiters ≠ 0
    · exact Or.inl (by simp only [sys_rwlock_destroy, h, hc, if_true])
    · refine Or.inr ⟨e, rfl, ?_⟩
      simp only [sys_rwlock_destroy, h, hc, if_false]
      push_neg at hc
      exact ⟨hc.2.2.2, hc.2.2.1, IdManager.GetIDData_RemoveID_self m id⟩

theorem Machine.counted_same (id : Nat) (s s' : Machine) (hc : s.counted id)
    (hw : s'.wlocks = s.wlocks)
    (h : (s'.idm.GetIDData id = none ∧ s.idm.GetIDData id = none) ∨
      ∃ e e', s.idm.GetIDData id = some e ∧ s'.idm.GetIDData id = some e' ∧
        e'.data.waiters = e.data.waiters) :
    s'.counted id := by
  rcases h with ⟨h1, h2⟩ | ⟨e, e', h1, h2, h3⟩
  · refine ⟨fun x hx => ?_, fun _ => hw ▸ hc.2 h2⟩
    rw [h1] at hx
    cases hx
  · refine ⟨fun x hx => ?_, fun hx => ?_⟩
    · rw [h2] at hx
      cases hx
      rw [h3, hw]
      exact hc.1 e h1
    · rw [h2] at hx
      cases hx

theorem Machine.counted_put (id : Nat) (s s' : Machine) (e e' : ID)
    (h : s.idm.GetIDData id = some e) (hidm : s'.idm = s.idm.put id e')
    (hlen : (s'.wlocks.length : Int) ≤ e'.data.waiters) : s'.counted id := by
  have hget : s'.idm.GetIDData id = some e' := by
    rw [hidm]
    exact IdManager.GetIDData_put_self s.idm id e' e h
  refine ⟨fun x hx => ?_, fun hx => ?_⟩
  · rw [hget] at hx
    cases hx
    exact hlen
  · rw [hget] at hx
    cases hx

theorem Machine.step_counted (id : Nat) (s : Machine) (st : Step) (hc : s.counted id) :
    ∃ r, s.step id st = some r ∧ r.2.counted id := by
  cases st with
  | destroy =>
    refine ⟨_, rfl, ?_⟩
    rcases destroy_effect s.idm id with h | ⟨e, h1, h2, _, h4⟩
    · exact ⟨fun x hx => hc.1 x (h ▸ hx), fun hx => hc.2 (h ▸ hx)⟩
    · have hlen := hc.1 e h1
      rw [h2] at hlen
      have hnil : s.wlocks = [] := by
        apply List.eq_nil_of_length_eq_zero
        omega
      refine ⟨fun x hx => ?_, fun _ => hnil⟩
      have hx' : (sys_rwlock_destroy s.idm id).2.GetIDData id = some x := hx
      rw [h4] at hx'
      cases hx'
  | tryrlock =>
    refine ⟨_, rfl, Machine.counted_same id s _ hc rfl ?_⟩
    rcases tryrlock_effect s.idm id with ⟨h1, h2⟩ | ⟨e, e', h1, h2, h3, _⟩
    · exact Or.inl ⟨by show (sys_rwlock_tryrlock s.idm id).2.GetIDData id = none
                       rw [h2]; exact h1, h1⟩
    · exact Or.inr ⟨e, e', h1, h2, h3⟩
  | runlock =>
    refine ⟨_, rfl, Machine.counted_same id s _ hc rfl ?_⟩
    rcases runlock_effect s.idm id with ⟨h1, h2⟩ | ⟨e, e', h1, h2, h3, _⟩
    · exact Or.inl ⟨by show (sys_rwlock_runlock s.idm id).2.GetIDData id = none
                       rw [h2]; exact h1, h1⟩
    · exact Or.inr ⟨e, e', h1, h2, h3⟩
  | trywlock cpu =>
    refine ⟨_, rfl, Machine.counted_same id s _ hc rfl ?_⟩
    rcases trywlock_effect s.idm cpu id with ⟨h1, h2⟩ | ⟨e, e', h1, h2, h3, _⟩
    · exact Or.inl ⟨by show (sys_rwlock_trywlock s.idm cpu id).2.GetIDData id = none
                       rw [h2]; exact h1, h1⟩
    · exact Or.inr ⟨e, e', h1, h2, h3⟩
  | wunlock cpu =>
    refine ⟨_, rfl, Machine.counted_same id s _ hc rfl ?_⟩
    rcases wunlock_effect s.idm cpu id with ⟨h1, h2⟩ | ⟨e, e', h1, h2, h3, _⟩
    · exact Or.inl ⟨by show (sys_rwlock_wunlock s.idm cpu id).2.GetIDData id = none
                       rw [h2]; exact h1, h1⟩
    · exact Or.inr ⟨e, e', h1, h2, h3⟩
  | rlock timeout start_time now stopped =>
    cases h : s.idm.GetIDData id with
    | none => exact ⟨_, by simp only [Machine.step, h]; rfl, hc⟩
    | some e =>
      cases hchk : rlock_check e.data timeout start_time now stopped with
      | ret x l =>
        refine ⟨_, by simp only [Machine.step, h, hchk]; rfl, ?_⟩
        refine Machine.counted_put id s _ e _ h rfl ?_
        show (s.wlocks.length : Int) ≤ l.waiters
        rw [(rlock_check_ret _ _ _ _ _ _ _ hchk).1]
        exact hc.1 e h
      | wait l =>
        refine ⟨_, by simp only [Machine.step, h, hchk]; rfl, ?_⟩
        refine Machine.counted_put id s _ e _ h rfl ?_
        show (s.wlocks.length : Int) ≤ l.waiters
        rw [rlock_check_wait _ _ _ _ _ _ hchk]
        exact hc.1 e h
      | assert_fail => exact absurd hchk (rlock_check_no_assert _ _ _ _ _)
  | rlock_wake i now stopped =>
    cases hw : s.rlocks[i]? with
    | none => exact ⟨_, by simp only [Machine.step, hw]; rfl, hc⟩
    | some w =>
      cases h : s.idm.GetIDData id with
      | none => exact ⟨_, by simp only [Machine.step, hw, h]; rfl, hc⟩
      | some e =>
        cases hchk : rlock_check e.data w.timeout w.start_time now stopped with
        | ret x l =>
          refine ⟨_, by simp only [Machine.step, hw, h, hchk]; rfl, ?_⟩
          refine Machine.counted_put id s _ e _ h rfl ?_
          show (s.wlocks.length : Int) ≤ l.waiters
          rw [(rlock_check_ret _ _ _ _ _ _ _ hchk).1]
          exact hc.1 e h
        | wait l =>
          refine ⟨_, by simp only [Machine.step, hw, h, hchk]; rfl, ?_⟩
          refine Machine.counted_put id s _ e _ h rfl ?_
          show (s.wlocks.length : Int) ≤ l.waiters
          rw [rlock_check_wait _ _ _ _ _ _ hchk]
          exact hc.1 e h
        | assert_fail => exact absurd hchk (rlock_check_no_assert _ _ _ _ _)
  | wlock cpu timeout start_time now stopped =>
    cases h : s.idm.GetIDData id with
    | none => exact ⟨_, by simp only [Machine.step, h]; rfl, hc⟩
    | some e =>
      have hlen := hc.1 e h
      have hnn : (0 : Int) ≤ s.wlocks.length := Int.natCast_nonneg _
      by_cases hwr : e.data.writer = cpu
      · exact ⟨_, by simp only [Machine.step, h, wlock_enter, hwr, if_true]; rfl, hc⟩
      · have hgt : e.data.waiters + 1 > 0 := by omega
        have hent : wlock_enter e.data cpu =
            some (.inr { e.data with waiters := e.data.waiters + 1 }) := by
          simp only [wlock_enter, hwr, hgt, if_true, if_false]
        cases hchk : wlock_check { e.data with waiters := e.data.waiters + 1 } cpu timeout
            start_time now stopped with
        | ret x l =>
          refine ⟨_, by simp only [Machine.step, h, hent, hchk]; rfl, ?_⟩
          refine Machine.counted_put id s _ e _ h rfl ?_
          show (s.wlocks.length : Int) ≤ l.waiters
          have h1 := (wlock_check_ret _ _ _ _ _ _ _ _ hchk).1
          have h2 : e.data.waiters + 1 - 1 ≤ l.waiters := h1
          omega
        | wait l =>
          refine ⟨_, by simp only [Machine.step, h, hent, hchk]; rfl, ?_⟩
          refine Machine.counted_put id s _ e _ h rfl ?_
          show (((_ :: s.wlocks : List wlock_waiter).length : Nat) : Int) ≤ l.waiters
          rw [wlock_check_wait _ _ _ _ _ _ _ hchk]
          show (((_ :: s.wlocks : List wlock_waiter).length : Nat) : Int) ≤ e.data.waiters + 1
          rw [List.length_cons]
          push_cast
          omega
        | assert_fail =>
          exact absurd hchk (wlock_check_no_assert _ _ _ _ _ _
            (by show 1 ≤ e.data.waiters + 1; omega))
  | wlock_wake i now stopped =>
    cases hw : s.wlocks[i]? with
    | none => exact ⟨_, by simp only [Machine.step, hw]; rfl, hc⟩
    | some w =>
      cases h : s.idm.GetIDData id with
      | none => exact ⟨_, by simp only [Machine.step, hw, h]; rfl, hc⟩
      | some e =>
        have hlen := hc.1 e h
        have hi : i < s.wlocks.length := (List.getElem?_eq_some.1 hw).1
        have hpos : 1 ≤ e.data.waiters := by omega
        cases hchk : wlock_check e.data w.cpu w.timeout w.start_time now stopped with
        | ret x l =>
          refine ⟨_, by simp only [Machine.step, hw, h, hchk]; rfl, ?_⟩
          refine Machine.counted_put id s _ e _ h rfl ?_
          show (((s.wlocks.eraseIdx i).length : Nat) : Int) ≤ l.waiters
          have h1 := (wlock_check_ret _ _ _ _ _ _ _ _ hchk).1
          rw [List.length_eraseIdx, if_pos hi]
          omega
        | wait l =>
          refine ⟨_, by simp only [Machine.step, hw, h, hchk]; rfl, ?_⟩
          refine Machine.counted_put id s _ e _ h rfl ?_
          show (s.wlocks.length : Int) ≤ l.waiters
          rw [wlock_check_wait _ _ _ _ _ _ _ hchk]
          exact hlen
        | assert_fail => exact absurd hchk (wlock_check_no_assert _ _ _ _ _ _ hpos)

theorem Machine.run_counted (id : Nat) (steps : List Step) :
    ∀ s : Machine, s.counted id →
      ∃ s', Machine.run id s steps = some s' ∧ s'.counted id := by
  induction steps with
  | nil => exact fun s hc => ⟨s, rfl, hc⟩
  | cons st rest ih =>
    intro s hc
    obtain ⟨r, h1, h2⟩ := Machine.step_counted id s st hc
    obtain ⟨s', h3, h4⟩ := ih r.2 h2
    exact ⟨s', by simp only [Machine.run, h1, h3], h4⟩

/-- C18: start from a lock with `waiters = 0` on which no call is suspended and perform
any sequence of steps of the nine kinds, in any interleaving, with any callers,
timeouts, clock readings and stop flags.  No step fails an assertion of
`sys_rwlock_wlock` (`waiters > 0` after the increment, `waiters >= 0` after the
decrement of the timeout path and of the acquisition), and in the state reached
`waiters` is at least the number of suspended `wlock` calls, hence `waiters >= 0`. -/
theorem waiters_never_negative (m : IdManager) (id : Nat) (e : ID) (steps : List Step)
    (h : m.GetIDData id = some e) (hq : e.data.waiters = 0) :
    ∃ s', Machine.run id { idm := m, wlocks := [], rlocks := [] } steps = some s' ∧
      ∀ e', s'.idm.GetIDData id = some e' →
        0 ≤ e'.data.waiters ∧ (s'.wlocks.length : Int) ≤ e'.data.waiters := by
  have h0 : ({ idm := m, wlocks := [], rlocks := [] } : Machine).counted id := by
    refine ⟨fun x hx => ?_, fun _ => rfl⟩
    have hx' : m.GetIDData id = some x := hx
    rw [h] at hx'
    cases hx'
    show ((([] : List wlock_waiter).length : Nat) : Int) ≤ e.data.waiters
    rw [hq]
    simp
  obtain ⟨s', h1, h2⟩ := Machine.run_counted id steps _ h0
  refine ⟨s', h1, fun e' he' => ?_⟩
  have h3 := h2.1 e' he'
  have hnn : (0 : Int) ≤ s'.wlocks.length := Int.natCast_nonneg _
  exact ⟨by omega, h3⟩

/-- C18 on a concrete interleaving: a reader, two suspended writers, a suspended
reader, a refused destroy, the release, one writer acquiring, the other aborted by the
stop flag, the unlock, further reader checks. -/
theorem waiters_never_negative_witness :
    ∃ s', Machine.run 1 { idm := table_with 0 0 0, wlocks := [], rlocks := [] }
        [.tryrlock, .wlock 5 10 0 1 false, .wlock 6 0 0 2 false, .rlock 0 0 3 false,
         .destroy, .runlock, .wlock_wake 1 20 false, .wlock_wake 0 21 true,
         .rlock_wake 0 22 false, .wunlock 5, .rlock_wake 0 23 false] = some s' ∧
      ∀ e', s'.idm.GetIDData 1 = some e' →
        0 ≤ e'.data.waiters ∧ (s'.wlocks.length : Int) ≤ e'.data.waiters :=
  waiters_never_negative (table_with 0 0 0) 1 (slot_with 0 0 0) _ rfl rfl

theorem Machine.step_writer (id : Nat) (s s' : Machine) (st : Step) (r : Option Status)
    (e : ID) (h : s.idm.GetIDData id = some e) (hstep : s.step id st = some (r, s')) :
    (s'.idm.GetIDData id = none ∧ e.data.writer = 0) ∨
    ∃ e', s'.idm.GetIDData id = some e' ∧
      (e'.data.writer = e.data.writer ∨
       (e'.data.writer = 0 ∧ st = .wunlock e.data.writer ∧ r = some CELL_OK) ∨
       (e.data.writer = 0 ∧ e.data.readers = 0 ∧ r = some CELL_OK ∧
         (st = .trywlock e'.data.writer ∨
          (∃ timeout start_time now stopped,
            st = .wlock e'.data.writer timeout start_time now stopped) ∨
          (∃ i now stopped w, st = .wlock_wake i now stopped ∧ s.wlocks[i]? = some w ∧
            w.cpu = e'.data.writer)))) := by
  cases st with
  | destroy =>
    simp only [Machine.step, Option.some.injEq, Prod.mk.injEq] at hstep
    obtain ⟨_, hs⟩ := hstep
    subst hs
    rcases destroy_effect s.idm id with hd | ⟨e0, h1, _, h3, h4⟩
    · exact Or.inr ⟨e, by show (sys_rwlock_destroy s.idm id).2.GetIDData id = some e
                          rw [hd]; exact h, Or.inl rfl⟩
    · rw [h] at h1
      cases h1
      exact Or.inl ⟨h4, h3⟩
  | tryrlock =>
    simp only [Machine.step, Option.some.injEq, Prod.mk.injEq] at hstep
    obtain ⟨_, hs⟩ := hstep
    subst hs
    rcases tryrlock_effect s.idm id with ⟨h1, _⟩ | ⟨e0, e', h1, h2, _, h4⟩
    · rw [h] at h1
      cases h1
    · rw [h] at h1
      cases h1
      exact Or.inr ⟨e', h2, Or.inl h4⟩
  | runlock =>
    simp only [Machine.step, Option.some.injEq, Prod.mk.injEq] at hstep
    obtain ⟨_, hs⟩ := hstep
    subst hs
    rcases runlock_effect s.idm id with ⟨h1, _⟩ | ⟨e0, e', h1, h2, _, h4⟩
    · rw [h] at h1
      cases h1
    · rw [h] at h1
      cases h1
      exact Or.inr ⟨e', h2, Or.inl h4⟩
  | trywlock cpu =>
    simp only [Machine.step, Option.some.injEq, Prod.mk.injEq] at hstep
    obtain ⟨hr, hs⟩ := hstep
    subst hs
    rcases trywlock_effect s.idm cpu id with ⟨h1, _⟩ | ⟨e0, e', h1, h2, _, h4⟩
    · rw [h] at h1
      cases h1
    · rw [h] at h1
      cases h1
      rcases h4 with h4 | ⟨h5, h6, h7, h8⟩
      · exact Or.inr ⟨e', h2, Or.inl h4⟩
      · refine Or.inr ⟨e', h2, Or.inr (Or.inr ⟨h5, h6, ?_, Or.inl (by rw [h7])⟩)⟩
        rw [← hr, h8]
  | wunlock cpu =>
    simp only [Machine.step, Option.some.injEq, Prod.mk.injEq] at hstep
    obtain ⟨hr, hs⟩ := hstep
    subst hs
    rcases wunlock_effect s.idm cpu id with ⟨h1, _⟩ | ⟨e0, e', h1, h2, _, h4⟩
    · rw [h] at h1
      cases h1
    · rw [h] at h1
      cases h1
      rcases h4 with h4 | ⟨h5, h6, h7⟩
      · exact Or.inr ⟨e', h2, Or.inl h4⟩
      · refine Or.inr ⟨e', h2, Or.inr (Or.inl ⟨h5, by rw [h6], ?_⟩)⟩
        rw [← hr, h7]
  | rlock timeout start_time now stopped =>
    cases hchk : rlock_check e.data timeout start_time now stopped with
    | ret x l =>
      simp only [Machine.step, h, hchk, Option.some.injEq, Prod.mk.injEq] at hstep
      obtain ⟨_, hs⟩ := hstep
      subst hs
      exact Or.inr ⟨_, IdManager.GetIDData_put_self s.idm id _ e h,
        Or.inl (rlock_check_ret _ _ _ _ _ _ _ hchk).2⟩
    | wait l =>
      simp only [Machine.step, h, hchk, Option.some.injEq, Prod.mk.injEq] at hstep
      obtain ⟨_, hs⟩ := hstep
      subst hs
      refine Or.inr ⟨_, IdManager.GetIDData_put_self s.idm id _ e h, Or.inl ?_⟩
      show l.writer = e.data.writer
      rw [rlock_check_wait _ _ _ _ _ _ hchk]
    | assert_fail => exact absurd hchk (rlock_check_no_assert _ _ _ _ _)
  | rlock_wake i now stopped =>
    cases hw : s.rlocks[i]? with
    | none =>
      simp only [Machine.step, hw, Option.some.injEq, Prod.mk.injEq] at hstep
      obtain ⟨_, hs⟩ := hstep
      subst hs
      exact Or.inr ⟨e, h, Or.inl rfl⟩
    | some w =>
      cases hchk : rlock_check e.data w.timeout w.start_time now stopped with
      | ret x l =>
        simp only [Machine.step, hw, h, hchk, Option.some.injEq, Prod.mk.injEq] at hstep
        obtain ⟨_, hs⟩ := hstep
        subst hs
        exact Or.inr ⟨_, IdManager.GetIDData_put_self s.idm id _ e h,
          Or.inl (rlock_check_ret _ _ _ _ _ _ _ hchk).2⟩
      | wait l =>
        simp only [Machine.step, hw, h, hchk, Option.some.injEq, Prod.mk.injEq] at hstep
        obtain ⟨_, hs⟩ := hstep
        subst hs
        refine Or.inr ⟨_, IdManager.GetIDData_put_self s.idm id _ e h, Or.inl ?_⟩
        show l.writer = e.data.writer
        rw [rlock_check_wait _ _ _ _ _ _ hchk]
      | assert_fail => exact absurd hchk (rlock_check_no_assert _ _ _ _ _)
  | wlock cpu timeout start_time now stopped =>
    by_cases hwr : e.data.writer = cpu
    · simp only [Machine.step, h, wlock_enter, hwr, if_true, Option.some.injEq,
        Prod.mk.injEq] at hstep
      obtain ⟨_, hs⟩ := hstep
      subst hs
      exact Or.inr ⟨e, h, Or.inl rfl⟩
    · by_cases hgt : e.data.waiters + 1 > 0
      · have hent : wlock_enter e.data cpu =
            some (.inr { e.data with waiters := e.data.waiters + 1 }) := by
          simp only [wlock_enter, hwr, hgt, if_true, if_false]
        cases hchk : wlock_check { e.data with waiters := e.data.waiters + 1 } cpu timeout
            start_time now stopped with
        | ret x l =>
          simp only [Machine.step, h, hent, hchk, Option.some.injEq, Prod.mk.injEq] at hstep
          obtain ⟨hr, hs⟩ := hstep
          subst hs
          refine Or.inr ⟨_, IdManager.GetIDData_put_self s.idm id _ e h, ?_⟩
          rcases (wlock_check_ret _ _ _ _ _ _ _ _ hchk).2.2 with h1 | ⟨h1, h2, h3, h4⟩
          · exact Or.inl h1
          · refine Or.inr (Or.inr ⟨h1, h2, ?_, Or.inr (Or.inl ⟨timeout, start_time, now,
              stopped, ?_⟩)⟩)
            · rw [← hr, h4]
              rfl
            · show Step.wlock cpu timeout start_time now stopped =
                Step.wlock l.writer timeout start_time now stopped
              rw [h3]
        | wait l =>
          simp only [Machine.step, h, hent, hchk, Option.some.injEq, Prod.mk.injEq] at hstep
          obtain ⟨_, hs⟩ := hstep
          subst hs
          refine Or.inr ⟨_, IdManager.GetIDData_put_self s.idm id _ e h, Or.inl ?_⟩
          show l.writer = e.data.writer
          rw [wlock_check_wait _ _ _ _ _ _ _ hchk]
        | assert_fail =>
          simp only [Machine.step, h, hent, hchk] at hstep
          cases hstep
      · simp only [Machine.step, h, wlock_enter, hwr, hgt, if_false] at hstep
        cases hstep
  | wlock_wake i now stopped =>
    cases hw : s.wlocks[i]? with
    | none =>
      simp only [Machine.step, hw, Option.some.injEq, Prod.mk.injEq] at hstep
      obtain ⟨_, hs⟩ := hstep
      subst hs
      exact Or.inr ⟨e, h, Or.inl rfl⟩
    | some w =>
      cases hchk : wlock_check e.data w.cpu w.timeout w.start_time now stopped with
      | ret x l =>
        simp only [Machine.step, hw, h, hchk, Option.some.injEq, Prod.mk.injEq] at hstep
        obtain ⟨hr, hs⟩ := hstep
        subst hs
        refine Or.inr ⟨_, IdManager.GetIDData_put_self s.idm id _ e h, ?_⟩
        rcases (wlock_check_ret _ _ _ _ _ _ _ _ hchk).2.2 with h1 | ⟨h1, h2, h3, h4⟩
        · exact Or.inl h1
        · refine Or.inr (Or.inr ⟨h1, h2, ?_, Or.inr (Or.inr ⟨i, now, stopped, w, rfl, hw,
            h3.symm⟩)⟩)
          rw [← hr, h4]
          rfl
      | wait l =>
        simp only [Machine.step, hw, h, hchk, Option.some.injEq, Prod.mk.injEq] at hstep
        obtain ⟨_, hs⟩ := hstep
        subst hs
        refine Or.inr ⟨_, IdManager.GetIDData_put_self s.idm id _ e h, Or.inl ?_⟩
        show l.writer = e.data.writer
        rw [wlock_check_wait _ _ _ _ _ _ _ hchk]
      | assert_fail =>
        simp only [Machine.step, hw, h, hchk] at hstep
        cases hstep

theorem rlock_loop_writer (timeout start_time : Nat) (obs : List (Nat × Bool))
    (l : rwlock_t) : (rlock_loop timeout start_time l obs).2.writer = l.writer := by
  induction obs with
  | nil =>
    by_cases hc : l.writer ≠ 0 ∨ l.waiters ≠ 0 <;> simp [rlock_loop, hc]
  | cons o rest ih =>
    obtain ⟨now, stopped⟩ := o
    cases hchk : rlock_check l timeout start_time now stopped with
    | ret x l' =>
      simp only [rlock_loop, hchk]
      exact (rlock_check_ret _ _ _ _ _ _ _ hchk).2
    | wait l' =>
      simp only [rlock_loop, hchk]
      rw [rlock_check_wait _ _ _ _ _ _ hchk]
      exact ih
    | assert_fail => simp only [rlock_loop, hchk]

theorem wlock_loop_writer (cpu timeout start_time : Nat) (obs : List (Nat × Bool))
    (l : rwlock_t) :
    (wlock_loop cpu timeout start_time l obs).2.writer = l.writer ∨
    (l.writer = 0 ∧ l.readers = 0 ∧ (wlock_loop cpu timeout start_time l obs).2.writer = cpu ∧
      (wlock_loop cpu timeout start_time l obs).1 = .done CELL_OK) := by
  induction obs with
  | nil =>
    by_cases hc : l.readers ≠ 0 ∨ l.writer ≠ 0
    · simp [wlock_loop, hc]
    · by_cases hge : l.waiters - 1 ≥ 0
      · push_neg at hc
        simp [wlock_loop, wlock_acquire, hc, hge, Exit.status]
      · simp [wlock_loop, wlock_acquire, hc, hge]
  | cons o rest ih =>
    obtain ⟨now, stopped⟩ := o
    cases hchk : wlock_check l cpu timeout start_time now stopped with
    | ret x l' =>
      simp only [wlock_loop, hchk]
      rcases (wlock_check_ret _ _ _ _ _ _ _ _ hchk).2.2 with h1 | ⟨h1, h2, h3, h4⟩
      · exact Or.inl h1
      · exact Or.inr ⟨h1, h2, h3, by rw [h4]; rfl⟩
    | wait l' =>
      simp only [wlock_loop, hchk]
      rw [wlock_check_wait _ _ _ _ _ _ _ hchk]
      exact ih
    | assert_fail =>
      simp only [wlock_loop, hchk]
      exact Or.inl trivial

theorem finish_slot (m : IdManager) (id : Nat) (e : ID) (r : Ret × rwlock_t)
    (h : m.GetIDData id = some e) :
    ∃ e', (finish m id e r).2.GetIDData id = some e' ∧
      (e'.data = r.2 ∨ (r.1 = .assert_failed ∧ e' = e)) := by
  obtain ⟨x, l⟩ := r
  cases x with
  | done s => exact ⟨_, IdManager.GetIDData_put_self m id _ e h, Or.inl rfl⟩
  | blocked => exact ⟨_, IdManager.GetIDData_put_self m id _ e h, Or.inl rfl⟩
  | assert_failed => exact ⟨e, h, Or.inr ⟨rfl, rfl⟩⟩

theorem Call.run_writer (m : IdManager) (id : Nat) (e : ID) (c : Call)
    (h : m.GetIDData id = some e) :
    ∃ e', (c.run m id).2.GetIDData id = some e' ∧
      (e'.data.writer = e.data.writer ∨
       (e'.data.writer = 0 ∧ c = .wunlock e.data.writer ∧ (c.run m id).1 = .done CELL_OK) ∨
       (e.data.writer = 0 ∧ e.data.readers = 0 ∧ (c.run m id).1 = .done CELL_OK ∧
         (c = .trywlock e'.data.writer ∨
          ∃ timeout start_time obs, c = .wlock e'.data.writer timeout start_time obs))) := by
  cases c with
  | rlock timeout start_time obs =>
    obtain ⟨e', h1, h2⟩ := finish_slot m id e (rlock_loop timeout start_time e.data obs) h
    refine ⟨e', by simp only [Call.run, sys_rwlock_rlock, h]; exact h1, Or.inl ?_⟩
    rcases h2 with h2 | ⟨_, h2⟩
    · rw [h2]
      exact rlock_loop_writer timeout start_time obs e.data
    · rw [h2]
  | tryrlock =>
    rcases tryrlock_effect m id with ⟨h1, _⟩ | ⟨e0, e', h1, h2, _, h4⟩
    · rw [h] at h1
      cases h1
    · rw [h] at h1
      cases h1
      exact ⟨e', h2, Or.inl h4⟩
  | runlock =>
    rcases runlock_effect m id with ⟨h1, _⟩ | ⟨e0, e', h1, h2, _, h4⟩
    · rw [h] at h1
      cases h1
    · rw [h] at h1
      cases h1
      exact ⟨e', h2, Or.inl h4⟩
  | wlock cpu timeout start_time obs =>
    by_cases hwr : e.data.writer = cpu
    · refine ⟨e, ?_, Or.inl rfl⟩
      simp only [Call.run, sys_rwlock_wlock, h, wlock_enter, hwr, if_true]
    · by_cases hgt : e.data.waiters + 1 > 0
      · have hrun : (Call.wlock cpu timeout start_time obs).run m id =
            finish m id e (wlock_loop cpu timeout start_time
              { e.data with waiters := e.data.waiters + 1 } obs) := by
          simp only [Call.run, sys_rwlock_wlock, h, wlock_enter, hwr, hgt, if_true, if_false]
        obtain ⟨e', h1, h2⟩ := finish_slot m id e (wlock_loop cpu timeout start_time
          { e.data with waiters := e.data.waiters + 1 } obs) h
        rw [hrun]
        refine ⟨e', h1, ?_⟩
        rcases h2 with h2 | ⟨_, h2⟩
        · rcases wlock_loop_writer cpu timeout start_time obs
            { e.data with waiters := e.data.waiters + 1 } with h3 | ⟨h3, h4, h5, h6⟩
          · exact Or.inl (by rw [h2]; exact h3)
          · refine Or.inr (Or.inr ⟨h3, h4, ?_, Or.inr ⟨timeout, start_time, obs, ?_⟩⟩)
            · rw [finish_fst]
              exact h6
            · rw [h2, h5]
        · exact Or.inl (by rw [h2])
      · refine ⟨e, ?_, Or.inl rfl⟩
        simp only [Call.run, sys_rwlock_wlock, h, wlock_enter, hwr, hgt, if_false]
  | trywlock cpu =>
    rcases trywlock_effect m cpu id with ⟨h1, _⟩ | ⟨e0, e', h1, h2, _, h4⟩
    · rw [h] at h1
      cases h1
    · rw [h] at h1
      cases h1
      rcases h4 with h4 | ⟨h5, h6, h7, h8⟩
      · exact ⟨e', h2, Or.inl h4⟩
      · refine ⟨e', h2, Or.inr (Or.inr ⟨h5, h6, ?_, Or.inl (by rw [h7])⟩)⟩
        show Ret.done (sys_rwlock_trywlock m cpu id).1 = Ret.done CELL_OK
        rw [h8]
  | wunlock cpu =>
    rcases wunlock_effect m cpu id with ⟨h1, _⟩ | ⟨e0, e', h1, h2, _, h4⟩
    · rw [h] at h1
      cases h1
    · rw [h] at h1
      cases h1
      rcases h4 with h4 | ⟨h5, h6, h7⟩
      · exact ⟨e', h2, Or.inl h4⟩
      · refine ⟨e', h2, Or.inr (Or.inl ⟨h5, by rw [h6], ?_⟩)⟩
        show Ret.done (sys_rwlock_wunlock m cpu id).1 = Ret.done CELL_OK
        rw [h7]

/-! ## Write ownership -/

/-- C19: on a lock with writer `W != none`, after any call (run on its own) and after
any step of interleaved calls the handle still resolves and the writer is `W` or none,
and it is none only after a `wunlock` by `W` that returned `CELL_OK`.  On a lock without
writer, a call or step that leaves a writer was a `trywlock` or `wlock` by exactly that
identity (for a step also a further pass of a suspended `wlock` call of that identity),
it returned `CELL_OK`, and `readers` was 0. -/
theorem writer_never_stolen (m : IdManager) (id : Nat) (e : ID)
    (h : m.GetIDData id = some e) :
    (∀ c : Call,
      (e.data.writer ≠ 0 →
        ∃ e', (c.run m id).2.GetIDData id = some e' ∧
          (e'.data.writer = e.data.writer ∨
            (e'.data.writer = 0 ∧ c = .wunlock e.data.writer ∧
              (c.run m id).1 = .done CELL_OK))) ∧
      (e.data.writer = 0 →
        ∀ e', (c.run m id).2.GetIDData id = some e' → e'.data.writer ≠ 0 →
          e.data.readers = 0 ∧ (c.run m id).1 = .done CELL_OK ∧
          (c = .trywlock e'.data.writer ∨
            ∃ timeout start_time obs, c = .wlock e'.data.writer timeout start_time obs))) ∧
    (∀ (wlocks : List wlock_waiter) (rlocks : List rlock_waiter) (st : Step)
        (r : Option Status) (s' : Machine),
      Machine.step id { idm := m, wlocks := wlocks, rlocks := rlocks } st = some (r, s') →
      (e.data.writer ≠ 0 →
        ∃ e', s'.idm.GetIDData id = some e' ∧
          (e'.data.writer = e.data.writer ∨
            (e'.data.writer = 0 ∧ st = .wunlock e.data.writer ∧ r = some CELL_OK))) ∧
      (e.data.writer = 0 →
        ∀ e', s'.idm.GetIDData id = some e' → e'.data.writer ≠ 0 →
          e.data.readers = 0 ∧ r = some CELL_OK ∧
          (st = .trywlock e'.data.writer ∨
            (∃ timeout start_time now stopped,
              st = .wlock e'.data.writer timeout start_time now stopped) ∨
            (∃ i now stopped w, st = .wlock_wake i now stopped ∧ wlocks[i]? = some w ∧
              w.cpu = e'.data.writer)))) := by
  constructor
  · intro c
    obtain ⟨e', h1, h2⟩ := Call.run_writer m id e c h
    constructor
    · intro hW
      refine ⟨e', h1, ?_⟩
      rcases h2 with h2 | h2 | ⟨h2, _⟩
      · exact Or.inl h2
      · exact Or.inr h2
      · exact absurd h2 hW
    · intro h0 x hx hne
      rw [h1] at hx
      cases hx
      rcases h2 with h2 | ⟨h2, _⟩ | ⟨_, h3, h4, h5⟩
      · exact absurd (h2.trans h0) hne
      · exact absurd h2 hne
      · exact ⟨h3, h4, h5⟩
  · intro wlocks rlocks st r s' hstep
    have hcore := Machine.step_writer id { idm := m, wlocks := wlocks, rlocks := rlocks } s' st r
      e h hstep
    constructor
    · intro hW
      rcases hcore with ⟨_, h0⟩ | ⟨e', h1, h2⟩
      · exact absurd h0 hW
      · refine ⟨e', h1, ?_⟩
        rcases h2 with h2 | h2 | ⟨h2, _⟩
        · exact Or.inl h2
        · exact Or.inr h2
        · exact absurd h2 hW
    · intro h0 x hx hne
      rcases hcore with ⟨h1, _⟩ | ⟨e', h1, h2⟩
      · rw [h1] at hx
        cases hx
      · rw [h1] at hx
        cases hx
        rcases h2 with h2 | ⟨h2, _⟩ | ⟨_, h3, h4, h5⟩
        · exact absurd (h2.trans h0) hne
        · exact absurd h2 hne
        · exact ⟨h3, h4, h5⟩

/-- C19 at a concrete state: with writer 5, a `wlock` by caller 6 that finds the stop
flag set leaves the writer at 5. -/
theorem writer_never_stolen_witness :
    ∃ e', ((Call.wlock 6 0 0 [(3, true)]).run (table_with 0 5 0) 1).2.GetIDData 1 = some e' ∧
      (e'.data.writer = 5 ∨
        (e'.data.writer = 0 ∧ Call.wlock 6 0 0 [(3, true)] = .wunlock 5 ∧
          ((Call.wlock 6 0 0 [(3, true)]).run (table_with 0 5 0) 1).1 = .done CELL_OK)) :=
  ((writer_never_stolen (table_with 0 5 0) 1 (slot_with 0 5 0) rfl).1
    (.wlock 6 0 0 [(3, true)])).1 (by decide)

end SysRwlock
